import Mathlib

/-!
Voice-call classification pipeline: a shallow embedding

The development embeds, as executable Lean definitions,

* `voiceclassifier.Classifier.Classify` (pkg/voiceclassifier/voiceclassifier.go),
* `processUnclassifiedThreads`, `processThread`, `classifyVoiceCall`
  (cmd/classifier/main.go),
* `db.WithTx` (pkg/db/db.go) and `campaignthreads.UpdateStatus`
  (pkg/campaignthreads/campaignthreads.go),
* `api.Router`, `api.ListClassificationsForThreadHandler` (pkg/api) and
  `classifications.ListClassificationsForThread` (pkg/classifications),

together with the parts of Go's standard `time` package that `Classify`
calls (`time.Parse` for the layout it uses, `time.Date`, the clock accessors
of `time.Time`), and proves properties of them.

Effects are explicit.  Remote calls and storage calls are answered by
oracles that may depend on everything that happened before; every call is
recorded in a trace, so "is never invoked" and "exactly once" are statements
about that trace.  A run-time panic is an outcome of its own: the program
recovers from none, so every caller passes it on.
-/

set_option autoImplicit false

/-! ## Go's `time` package (standard library) -/

namespace time

/-- One zone transition of a location: from instant `when` (Unix seconds) on,
local time is `offset` seconds east of UTC. -/
structure zoneTrans where
  when : Int
  offset : Int
deriving DecidableEq, Repr

/-- A `time.Location`: its name, the offset in force before the first
transition, and the transitions in increasing order of `when` (the order in
which Go's loader stores them). -/
structure Location where
  name : String
  offset0 : Int
  tx : List zoneTrans
deriving DecidableEq, Repr

/-- The location `time.UTC`. -/
def UTC : Location := ⟨"UTC", 0, []⟩

/-- Go's `alpha`, the beginning of time for zone lookups (`-1 << 63`). -/
def alpha : Int := -(2 ^ 63)

/-- Go's `omega`, the end of time for zone lookups (`1<<63 - 1`). -/
def omega : Int := 2 ^ 63 - 1

/-- The scan behind `Location.lookup`: `cur` and `start` are the offset and
the start of the period found so far.  On a table sorted by `when` this finds
the same period as the binary search of Go's `lookup`. -/
def lookupFrom (cur start : Int) : List zoneTrans → Int → Int × Int × Int
  | [], _ => (cur, start, omega)
  | t :: rest, sec =>
    if sec < t.when then (cur, start, t.when) else lookupFrom t.offset t.when rest sec

/-- Go's `(*Location).lookup`: the zone period in force at the instant `sec`,
as (offset, start, end); the period is `start ≤ sec < end`. -/
def Location.lookup (l : Location) (sec : Int) : Int × Int × Int :=
  lookupFrom l.offset0 alpha l.tx sec

/-- The UTC offset in force in `l` at the instant `sec`. -/
def Location.offsetAt (l : Location) (sec : Int) : Int := (l.lookup sec).1

/-- A `time.Time`: an instant (Unix seconds and nanoseconds) and the location
in which it is presented. -/
structure Time where
  sec : Int
  nsec : Int
  loc : Location
deriving DecidableEq, Repr

def secondsPerMinute : Int := 60
def secondsPerHour : Int := 3600
def secondsPerDay : Int := 86400
def daysPer400Years : Int := 146097
def daysPer100Years : Int := 36524
def daysPer4Years : Int := 1461

/-- Go's `absoluteZeroYear`. -/
def absoluteZeroYear : Int := -292277022399

/-- Go's `unixToInternal + internalToAbsolute`: seconds from the absolute
epoch to the Unix epoch. -/
def unixToAbsolute : Int := 62135596800 + 9223371966579724800

/-- Go's `daysBefore` table: days in a non-leap year before month `m + 1`. -/
def daysBefore (m : Int) : Int :=
  if m = 0 then 0 else if m = 1 then 31 else if m = 2 then 59 else if m = 3 then 90
  else if m = 4 then 120 else if m = 5 then 151 else if m = 6 then 181
  else if m = 7 then 212 else if m = 8 then 243 else if m = 9 then 273
  else if m = 10 then 304 else if m = 11 then 334 else 365

/-- Go's `isLeap`. -/
def isLeap (year : Int) : Bool :=
  year % 4 = 0 ∧ (year % 100 ≠ 0 ∨ year % 400 = 0)

/-- Go's `daysIn`: the number of days of month `m` (1 to 12) of `year`. -/
def daysIn (m : Int) (year : Int) : Int :=
  if m = 2 ∧ isLeap year then 29 else daysBefore m - daysBefore (m - 1)

/-- Go's `norm`: `(nhi, nlo)` with `hi * base + lo = nhi * base + nlo` and
`0 ≤ nlo < base`. -/
def norm (hi lo base : Int) : Int × Int :=
  let (hi1, lo1) :=
    if lo < 0 then
      let n := (-lo - 1) / base + 1
      (hi - n, lo + n * base)
    else (hi, lo)
  if lo1 ≥ base then
    let n := lo1 / base
    (hi1 + n, lo1 - n * base)
  else (hi1, lo1)

/-- Go's `daysSinceEpoch`: days from the absolute epoch to 1 January of
`year`. -/
def daysSinceEpoch (year : Int) : Int :=
  let y := year - absoluteZeroYear
  let n400 := y / 400
  let y1 := y - 400 * n400
  let d1 := daysPer400Years * n400
  let n100 := y1 / 100
  let y2 := y1 - 100 * n100
  let d2 := d1 + daysPer100Years * n100
  let n4 := y2 / 4
  let y3 := y2 - 4 * n4
  let d3 := d2 + daysPer4Years * n4
  d3 + 365 * y3

/-- The first half of Go's `time.Date`: the civil fields, normalised, as
seconds since the absolute epoch (the local clock reading) and the normalised
nanoseconds. -/
def dateAbs (year month day hour min sec nsec : Int) : Int × Int :=
  let (year1, m) := norm year (month - 1) 12
  let month1 := m + 1
  let (sec1, nsec1) := norm sec nsec 1000000000
  let (min1, sec2) := norm min sec1 60
  let (hour1, min2) := norm hour min1 60
  let (day1, hour2) := norm day hour1 24
  let d0 := daysSinceEpoch year1 + daysBefore (month1 - 1)
  let d1 := if isLeap year1 ∧ month1 ≥ 3 then d0 + 1 else d0
  let d := d1 + (day1 - 1)
  (d * secondsPerDay + (hour2 * secondsPerHour + min2 * secondsPerMinute + sec2), nsec1)

/-- Go's `time.Date`: the instant whose clock in `loc` reads the given civil
fields.  The clock reading is first taken as if it were UTC and looked up in
the zone table; if the instant corrected by that offset falls outside the
period found, the offset in force at the corrected instant is used instead. -/
def Date (year month day hour min sec nsec : Int) (loc : Location) : Time :=
  let (abs, nsec1) := dateAbs year month day hour min sec nsec
  let unix := abs - unixToAbsolute
  let (offset, start, stop) := loc.lookup unix
  let unix1 :=
    if offset ≠ 0 then
      let utc := unix - offset
      let offset1 := if utc < start ∨ utc ≥ stop then loc.offsetAt utc else offset
      unix - offset1
    else unix
  ⟨unix1, nsec1, loc⟩

/-- Go's `(Time).abs`: the clock reading of `t` in its location, as seconds
since the absolute epoch (an unsigned 64-bit value). -/
def Time.abs (t : Time) : Int :=
  (t.sec + t.loc.offsetAt t.sec + unixToAbsolute) % 2 ^ 64

/-- The first half of Go's `absDate`: the year of a clock reading and the
day within that year, counted from 0. -/
def absYearDay (abs : Int) : Int × Int :=
  let d := abs / secondsPerDay
  let n400 := d / daysPer400Years
  let y1 := 400 * n400
  let d1 := d - daysPer400Years * n400
  let n100a := d1 / daysPer100Years
  let n100 := n100a - n100a / 4
  let y2 := y1 + 100 * n100
  let d2 := d1 - daysPer100Years * n100
  let n4 := d2 / daysPer4Years
  let y3 := y2 + 4 * n4
  let d3 := d2 - daysPer4Years * n4
  let n1a := d3 / 365
  let n1 := n1a - n1a / 4
  let y4 := y3 + n1
  let yday := d3 - 365 * n1
  (y4 + absoluteZeroYear, yday)

/-- Go's `absDate`: year, month (1 to 12) and day of the month of a clock
reading. -/
def absDate (abs : Int) : Int × Int × Int :=
  let (year, yday) := absYearDay abs
  if isLeap year ∧ yday = 31 + 29 - 1 then (year, 2, 29)
  else
    let day := if isLeap year ∧ yday > 31 + 29 - 1 then yday - 1 else yday
    let month := day / 31
    let stop := daysBefore (month + 1)
    if day ≥ stop then (year, month + 2, day - stop + 1)
    else (year, month + 1, day - daysBefore month + 1)

/-- Go's `absClock`: hour, minute and second of a clock reading. -/
def absClock (abs : Int) : Int × Int × Int :=
  let sec := abs % secondsPerDay
  let hour := sec / secondsPerHour
  let sec1 := sec - hour * secondsPerHour
  let min := sec1 / secondsPerMinute
  (hour, min, sec1 - min * secondsPerMinute)

def Time.Year (t : Time) : Int := (absDate t.abs).1
def Time.Month (t : Time) : Int := (absDate t.abs).2.1
def Time.Day (t : Time) : Int := (absDate t.abs).2.2
def Time.Hour (t : Time) : Int := (absClock t.abs).1
def Time.Minute (t : Time) : Int := (absClock t.abs).2.1
def Time.Second (t : Time) : Int := (absClock t.abs).2.2
def Time.Nanosecond (t : Time) : Int := t.nsec

/-- Go's `(Time).In`: the same instant presented in `loc`. -/
def Time.In (t : Time) (loc : Location) : Time := { t with loc := loc }

/-- Go's `(Time).Weekday`, Sunday = 0: the absolute epoch was a Monday. -/
def Time.Weekday (t : Time) : Int :=
  ((t.abs + 1 * secondsPerDay) % (7 * secondsPerDay)) / secondsPerDay

/-- The English name of a weekday, Sunday = 0 (Go's `Weekday.String`). -/
def weekdayName (d : Int) : String :=
  if d = 0 then "Sunday" else if d = 1 then "Monday" else if d = 2 then "Tuesday"
  else if d = 3 then "Wednesday" else if d = 4 then "Thursday" else if d = 5 then "Friday"
  else "Saturday"

/-- Go's `appendInt`: `x` in decimal, zero-padded to `width` digits, with a
leading minus sign when negative. -/
def appendInt (x : Int) (width : Nat) : String :=
  let digits := toString x.natAbs
  (if x < 0 then "-" else "") ++ String.mk (List.replicate (width - digits.length) '0') ++ digits

/-- Go's `(Time).Format` for the layout `"2006-01-02 15:04:05, Monday"`, the
only layout the classifier formats with. -/
def Time.Format (t : Time) : String :=
  appendInt t.Year 4 ++ "-" ++ appendInt t.Month 2 ++ "-" ++ appendInt t.Day 2 ++ " "
    ++ appendInt t.Hour 2 ++ ":" ++ appendInt t.Minute 2 ++ ":" ++ appendInt t.Second 2
    ++ ", " ++ weekdayName t.Weekday

/-- Go's `isDigit` on the first byte. -/
def isDigit (c : Char) : Bool := decide ('0' ≤ c ∧ c ≤ '9')

/-- The value of a decimal digit. -/
def digitVal (c : Char) : Int := (c.toNat : Int) - 48

/-- Go's `getnum`: a one- or two-digit number at the head of `s`; with `fixed`
it must have two digits. -/
def getnum (s : List Char) (fixed : Bool) : Option (Int × List Char) :=
  match s with
  | [] => none
  | [c0] => if !isDigit c0 then none else if fixed then none else some (digitVal c0, [])
  | c0 :: c1 :: rest =>
    if !isDigit c0 then none
    else if !isDigit c1 then (if fixed then none else some (digitVal c0, c1 :: rest))
    else some (digitVal c0 * 10 + digitVal c1, rest)

/-- The four-digit year of Go's `stdLongYear`: four bytes, all digits. -/
def getyear (s : List Char) : Option (Int × List Char) :=
  match s with
  | c0 :: c1 :: c2 :: c3 :: rest =>
    if isDigit c0 ∧ isDigit c1 ∧ isDigit c2 ∧ isDigit c3 then
      some (digitVal c0 * 1000 + digitVal c1 * 100 + digitVal c2 * 10 + digitVal c3, rest)
    else none
  | _ => none

/-- Go's `skip` for a one-byte literal of the layout (none of them a space). -/
def skip (s : List Char) (c : Char) : Option (List Char) :=
  match s with
  | [] => none
  | c0 :: rest => if c0 = c then some rest else none

/-- The decimal value of a list of digits. -/
def digitsVal (ds : List Char) : Int := ds.foldl (fun acc c => acc * 10 + digitVal c) 0

/-- The fractional second that Go's `Parse` accepts after the seconds field
although the layout has none: a period or comma followed by at least one
digit.  Yields the nanoseconds (Go's `parseNanoseconds`: the first nine
digits, scaled) and the rest of the input. -/
def getfrac (s : List Char) : Int × List Char :=
  match s with
  | sep :: c1 :: rest =>
    if (sep = '.' ∨ sep = ',') ∧ isDigit c1 then
      let ds := c1 :: rest.takeWhile isDigit
      let used := ds.take 9
      (digitsVal used * 10 ^ (9 - used.length), rest.dropWhile isDigit)
    else (0, s)
  | _ => (0, s)

/-- The layout the classifier parses with. -/
def layoutISO : String := "2006-01-02T15:04:05"

/-- The fields `time.Parse` reads from its input before it builds the
time. -/
structure Fields where
  year : Int
  month : Int
  day : Int
  hour : Int
  min : Int
  sec : Int
  nsec : Int
deriving DecidableEq, Repr

/-- The reading of Go's `time.Parse` for the layout `"2006-01-02T15:04:05"`:
a four-digit year, two-digit month and day, a one- or two-digit hour,
two-digit minute and second, an optional fractional second, and nothing
else; month, hour, minute, second and the day of the month are
range-checked. -/
def parseFields (value : String) : Except String Fields :=
  let bad : Except String Fields :=
    .error ("parsing time \"" ++ value ++ "\" as \"" ++ layoutISO ++ "\"")
  match getyear value.data with
  | none => bad
  | some (year, v1) =>
  match skip v1 '-' with
  | none => bad
  | some v2 =>
  match getnum v2 true with
  | none => bad
  | some (month, v3) =>
  if month ≤ 0 ∨ 12 < month then bad else
  match skip v3 '-' with
  | none => bad
  | some v4 =>
  match getnum v4 true with
  | none => bad
  | some (day, v5) =>
  match skip v5 'T' with
  | none => bad
  | some v6 =>
  match getnum v6 false with
  | none => bad
  | some (hour, v7) =>
  if hour < 0 ∨ 24 ≤ hour then bad else
  match skip v7 ':' with
  | none => bad
  | some v8 =>
  match getnum v8 true with
  | none => bad
  | some (min, v9) =>
  if min < 0 ∨ 60 ≤ min then bad else
  match skip v9 ':' with
  | none => bad
  | some v10 =>
  match getnum v10 true with
  | none => bad
  | some (sec, v11) =>
  if sec < 0 ∨ 60 ≤ sec then bad else
  let (nsec, v12) := getfrac v11
  if v12 ≠ [] then bad
  else if day < 1 ∨ day > daysIn month year then bad
  else .ok ⟨year, month, day, hour, min, sec, nsec⟩

/-- Go's `time.Parse` for the layout `"2006-01-02T15:04:05"`: the fields read
from the input, as a time in UTC. -/
def Parse (value : String) : Except String Time :=
  match parseFields value with
  | .error err => .error err
  | .ok f => .ok (Date f.year f.month f.day f.hour f.min f.sec f.nsec UTC)

/-- The fields form a date-time of the calendar with a four-digit year. -/
def Fields.Valid (f : Fields) : Prop :=
  (0 ≤ f.year ∧ f.year ≤ 9999) ∧ (1 ≤ f.month ∧ f.month ≤ 12) ∧
  (1 ≤ f.day ∧ f.day ≤ daysIn f.month f.year) ∧ (0 ≤ f.hour ∧ f.hour < 24) ∧
  (0 ≤ f.min ∧ f.min < 60) ∧ (0 ≤ f.sec ∧ f.sec < 60) ∧
  (0 ≤ f.nsec ∧ f.nsec < 1000000000)

/-- The Unix time of the instant at which a UTC clock shows the fields `f`. -/
def Fields.unix (f : Fields) : Int :=
  (dateAbs f.year f.month f.day f.hour f.min f.sec f.nsec).1 - unixToAbsolute

/-- The clock of `l` shows the reading `wall` at some instant: the reading
exists in the zone.  A reading inside the interval skipped when the clocks go
forward does not. -/
def Location.shows (l : Location) (wall : Int) : Prop :=
  ∃ u : Int, u + l.offsetAt u = wall

/-- The transitions after the instant `start` are regular: each comes more
than 48 hours after the one before it (the first more than 48 hours after
`start`), and each offset is within 24 hours of UTC. -/
def regularFrom (start : Int) : List zoneTrans → Prop
  | [] => True
  | t :: rest =>
    start + 172800 < t.when ∧ (-86400 ≤ t.offset ∧ t.offset ≤ 86400) ∧ regularFrom t.when rest

/-- A regular zone table: the transitions are in increasing order, more than
48 hours apart, and every offset is within 24 hours of UTC. -/
def Location.Regular (l : Location) : Prop :=
  (-86400 ≤ l.offset0 ∧ l.offset0 ≤ 86400) ∧ regularFrom alpha l.tx

end time

/-! ## Values and collaborators outside the repository -/

/-- What a Go function call comes to: a value, an `error`, or a run-time
panic (which, unrecovered, ends the process). -/
inductive Outcome (α : Type) where
  | ok (a : α)
  | error (err : String)
  | panic (msg : String)
deriving DecidableEq, Repr

/-- Go's `errors.Wrap(err, msg)`, on error messages. -/
def errors.Wrap (err : String) (msg : String) : String := msg ++ ": " ++ err

namespace json

/-- What `encoding/json` stores in an `interface{}`: `nil`, `bool`, a number
(kept as its text), `string`, `[]interface{}` or `map[string]interface{}`. -/
inductive Value where
  | null
  | bool (b : Bool)
  | number (text : String)
  | string (s : String)
  | array (items : List Value)
  | object (fields : List (String × Value))

/-- A `map[string]interface{}`: the value stored under each key, if any.  The
nil map has no key. -/
abbrev Object := String → Option Value

end json

namespace openai

/-- The `openai.ChatCompletionMessage` fields the classifier sets and reads. -/
structure ChatCompletionMessage where
  Role : String
  Content : String
deriving DecidableEq, Repr

def ChatMessageRoleSystem : String := "system"
def ChatMessageRoleUser : String := "user"
def ChatMessageRoleAssistant : String := "assistant"
def ChatCompletionResponseFormatTypeJSONObject : String := "json_object"

/-- The `openai.ChatCompletionRequest` fields the classifier sets;
`Temperature` is the constant 0.0 throughout. -/
structure ChatCompletionRequest where
  Model : String
  ResponseFormat : String
  Temperature : Int
  Messages : List ChatCompletionMessage
deriving DecidableEq, Repr

structure ChatCompletionChoice where
  Message : ChatCompletionMessage
deriving DecidableEq, Repr

structure ChatCompletionResponse where
  Choices : List ChatCompletionChoice
deriving DecidableEq, Repr

/-- The remote chat-completion endpoint behind `CreateChatCompletion`: given
the requests already made during the current classification and the new
request, it answers with a response or an error.  Nothing is assumed about
its answers. -/
abbrev Client := List ChatCompletionRequest → ChatCompletionRequest →
  Except String ChatCompletionResponse

end openai

/-- The library functions `Classify` calls besides the `time` functions
modelled above: `json.Unmarshal` into a `map[string]interface{}` and
`time.LoadLocation`.  Nothing is assumed about either. -/
structure Lib where
  jsonUnmarshal : String → Except String json.Object
  LoadLocation : String → Except String time.Location

namespace db

/-- The dynamic type behind a `db.DBTX` value: the shared connection
(`*sqlx.DB`), an open transaction (`*sqlx.Tx`), or some other implementation
of the interface. -/
inductive DBTX where
  | DB
  | Tx
  | other
deriving DecidableEq, Repr

end db

namespace svc

/-- The service environment `svc.Env`. -/
structure Env where
  OpenAIClient : openai.Client
  DB : db.DBTX

end svc

namespace common

abbrev Intent := String

def IntentVoiceInterested : Intent := "voice_interested"
def IntentVoiceNotInterested : Intent := "voice_not_interested"
def IntentVoiceImmediateHangup : Intent := "voice_immediate_hangup"
def IntentVoiceWrongNumber : Intent := "voice_wrong_number"
def IntentVoiceNoAction : Intent := "voice_no_action"
def IntentVoiceWantsCallBack : Intent := "voice_wants_call_back"
def IntentVoiceWantsEmailFollowUp : Intent := "voice_wants_email_follow_up"
def IntentVoiceWantsWhatsappSMSFollowUp : Intent := "voice_wants_whatsapp_sms_follow_up"
def IntentVoiceVoiceMail : Intent := "voice_voice_mail"
def IntentVoiceUnknown : Intent := "voice_unknown"

abbrev CampaignThreadStatus := String

def CampaignThreadStatusNotStarted : CampaignThreadStatus := "not_started"
def CampaignThreadStatusVoiceCallUnclassified : CampaignThreadStatus := "voice_call_unclassified"
def CampaignThreadStatusVoiceCallClassified : CampaignThreadStatus := "voice_call_classified"

end common

/-! ## pkg/voiceclassifier -/

namespace voiceclassifier

open common openai

def classifySystemPrompt : String :=
  "\nYou are an responsible for classifying incoming call transcripts into relevant intent types so that the humans that are assigned to follow up know what is the best course of action.\nYou will be given a call transcript.\nFocus exclusively on the user's reply, i.e. sentences that starts with 'User: '.\nRead the transcripts carefully and classify the call transcript into the following categories:\n- 'voice_interested': The User EXPLICITLY indicated he/she is interested in the course or the university.\n- 'voice_not_interested': The user EXPLICITLY say that he/she is not interested in the course or the university.\n- 'voice_immediate_hangup': The user hangs up without expressing their full intent. This includes cutting off halfway through when the caller is talking, or no substantial discussion after exchanging greetings.\n- 'voice_wrong_number': The user who answered the phone indicated that we are calling the wrong number.\n- 'voice_no_action': The student has already signed up to the course or is in contact with the advisor. Only use this if the student does not need any additional help.\n- 'voice_wants_call_back': The user EXPLICITLY request that he/she wants a call back.\n- 'voice_wants_email_follow_up': The user wished to follow up through email.\n- 'voice_wants_whatsapp_sms_follow_up': The user wished to follow up through instant messaging, such as via Whatsapp or SMS.\n- 'voice_voice_mail': The call goes into an automated reply or a voice mail. Reply does not come from an actual user.\n- 'voice_unknown': Anything that does not fit into the above categories.\n"

/-- The text `fmt.Sprintf(classifyUserPrompt, transcript)`. -/
def classifyUserPrompt (transcript : String) : String :=
  "\nTranscript:\n--- BEGIN TRANSCRIPT ---\n" ++ transcript ++
  "\n--- END TRANSCRIPT ---\n\nRemember to focus on the User's replies to derive their intent, and not the Agent's!\nReply in the following JSON format \x7b'intent': <category>\x7d\n"

/-- The text `fmt.Sprintf(extractInterestedPrompt, calledAtConverted)`. -/
def extractInterestedPrompt (calledAtConverted : String) : String :=
  "\nNEXT OBJECTIVE:\nExtract the date and time which the user has agreed to meet the enrollment advisor. Output your answer in ISO time format (without time zone) only (e.g. 2006-01-02T15:04:00).\nExtract the time as is, do not do any timezone conversion. If no date and time is given, output 'null' value.\n\nCONTEXT:\nThe time and date during the conversation is " ++ calledAtConverted ++
  ".\n\nReply in the following JSON format \x7b'agreedDatetime': <iso_datetime>\x7d\n"

/-- The text `fmt.Sprintf(extractWantsCallBackPrompt, calledAtConverted)`. -/
def extractWantsCallBackPrompt (calledAtConverted : String) : String :=
  "\nNEXT OBJECTIVE:\nExtract the date and time which the user has agreed for the callback.\n\nRULES YOU MUST FOLLOW:\n- Output your answer in ISO time format (without time zone) only (e.g. 2006-01-02T15:04:00).\n- Extract the time as is, DO NOT perform any timezone conversion back to UTC. i.e. If the user mention 9PM Singapore Time, then just take the time as 9PM.\n- If user mention a time without AM or PM, assume it is the time when most people are active. i.e. 5:30 means 5:30PM, 12:30 means 12:30PM.\n- REMEMBER to convert the time appropriately to 24-hour format. i.e. 6PM means 18:00, not 6:00.\n\nINSTRUCTIONS:\nExtract the agreed date time for a call back.\nIf the user is ambiguous, use the best of your ability to determine the most appropriate agreed date and time that is in line with the intent of this objective.\nIf you were to decide an agreed date time, remember to keep within human active hours.\nIf there is little hint on when is the time to call back, just set it to the next available 6PM (18:00H).\nDo not leave empty.\n\nCONTEXT:\nThe time and date during the conversation is " ++ calledAtConverted ++
  ".\n\nReply the case number corresponding to the situation and the agreed date time in the following JSON format: \x7b'agreedDatetime': <iso_datetime>\x7d\n"

structure ClassifyParams where
  Transcript : String
  Timezone : String
  CalledAt : time.Time
deriving DecidableEq, Repr

/-- The result of a classification; a nil `*time.Time` is `none`. -/
structure ClassifyResponse where
  Intent : Intent
  InterestedTime : Option time.Time
  CallBackTime : Option time.Time
deriving DecidableEq, Repr

/-- The request both stages send: model, JSON-object response format,
temperature 0.0 and the conversation so far. -/
def chatRequest (messages : List ChatCompletionMessage) : ChatCompletionRequest :=
  { Model := "gpt-4.1"
    ResponseFormat := ChatCompletionResponseFormatTypeJSONObject
    Temperature := 0
    Messages := messages }

/-- The message of Go's panic when index 0 of an empty slice is read. -/
def indexOutOfRange : String := "runtime error: index out of range [0] with length 0"

/-- The conversation of stage 1: the system instruction and the user turn
embedding the transcript. -/
def stage1Messages (params : ClassifyParams) : List ChatCompletionMessage :=
  [ { Role := ChatMessageRoleSystem, Content := classifySystemPrompt },
    { Role := ChatMessageRoleUser, Content := classifyUserPrompt params.Transcript } ]

/-- The conversation of stage 2: that of stage 1, the stage-1 answer as an
assistant turn, and the extraction prompt. -/
def stage2Messages (params : ClassifyParams) (content1 prompt : String) :
    List ChatCompletionMessage :=
  stage1Messages params ++
    [ { Role := ChatMessageRoleAssistant, Content := content1 },
      { Role := ChatMessageRoleUser, Content := prompt } ]

/-- The extraction prompt of stage 2 for a call placed at `calledAt`, read in
`location`. -/
def stage2Prompt (intent : Intent) (calledAt : time.Time) (location : time.Location) : String :=
  let calledAtConverted := (calledAt.In location).Format
  if intent = "voice_interested" then extractInterestedPrompt calledAtConverted
  else extractWantsCallBackPrompt calledAtConverted

/-- The method `(*Classifier).Classify`.  Returns the outcome together with
the chat-completion requests it sent, in order. -/
def Classify (lib : Lib) (senv : svc.Env) (params : ClassifyParams) :
    Outcome ClassifyResponse × List ChatCompletionRequest :=
  let ret : ClassifyResponse :=
    { Intent := IntentVoiceUnknown, InterestedTime := none, CallBackTime := none }
  let messages := stage1Messages params
  let req1 := chatRequest messages
  match senv.OpenAIClient [] req1 with
  | .error err => (.error (errors.Wrap err "openai create chat completion"), [req1])
  | .ok resp =>
  match resp.Choices with
  | [] => (.panic indexOutOfRange, [req1])
  | choice1 :: _ =>
  match lib.jsonUnmarshal choice1.Message.Content with
  | .error err => (.error (errors.Wrap err "fail to parse response"), [req1])
  | .ok result1 =>
  let ret : ClassifyResponse :=
    match result1 "intent" with
    | some (.string intent) => { ret with Intent := intent }
    | _ => ret
  if ret.Intent = IntentVoiceInterested ∨ ret.Intent = IntentVoiceWantsCallBack then
    match lib.LoadLocation params.Timezone with
    | .error err => (.error (errors.Wrap err "error loading location timezone"), [req1])
    | .ok location =>
    let prompt := stage2Prompt ret.Intent params.CalledAt location
    let messages := stage2Messages params choice1.Message.Content prompt
    let req2 := chatRequest messages
    match senv.OpenAIClient [req1] req2 with
    | .error err => (.error (errors.Wrap err "openai create chat completion"), [req1, req2])
    | .ok resp2 =>
    match resp2.Choices with
    | [] => (.panic indexOutOfRange, [req1, req2])
    | choice2 :: _ =>
    match lib.jsonUnmarshal choice2.Message.Content with
    | .error err => (.error (errors.Wrap err "fail to parse response"), [req1, req2])
    | .ok result2 =>
    match result2 "agreedDatetime" with
    | some (.string agreedDatetime) =>
      if agreedDatetime ≠ "" ∧ agreedDatetime ≠ "null" then
        match time.Parse agreedDatetime with
        | .error err => (.error (errors.Wrap err "error parsing time"), [req1, req2])
        | .ok tUTC =>
          let t := time.Date tUTC.Year tUTC.Month tUTC.Day tUTC.Hour tUTC.Minute tUTC.Second
            tUTC.Nanosecond location
          if ret.Intent = IntentVoiceInterested then
            (.ok { ret with InterestedTime := some t }, [req1, req2])
          else if ret.Intent = IntentVoiceWantsCallBack then
            (.ok { ret with CallBackTime := some t }, [req1, req2])
          else (.ok ret, [req1, req2])
      else (.ok ret, [req1, req2])
    | _ => (.ok ret, [req1, req2])
  else (.ok ret, [req1])

end voiceclassifier

/-! ## Storage: rows, the generated queries, transactions -/

namespace time

/-- The zero `time.Time`: 1 January of year 1, 00:00:00 UTC. -/
def Time.zero : Time := ⟨-62135596800, 0, UTC⟩

end time

namespace sql

/-- Go's `sql.NullTime`. -/
structure NullTime where
  Time : time.Time
  Valid : Bool
deriving DecidableEq, Repr

/-- The zero value `sql.NullTime{}`, which stands for SQL NULL. -/
def NullTime.null : NullTime := ⟨time.Time.zero, false⟩

end sql

namespace campaignthreads.generated

/-- Modelled from the spec: the generated row type `CampaignThread` is not
among the sources; a thread has an identifier and a workflow status (its
timestamps are not read by the pipeline and are left out). -/
structure CampaignThread where
  ID : String
  Status : String
deriving DecidableEq, Repr

/-- Modelled from the spec: the generated `UpdateStatusParams`, with the two
fields the source sets. -/
structure UpdateStatusParams where
  ID : String
  Status : String
deriving DecidableEq, Repr

/-- The generated `Queries`: a handle on which its statements run. -/
structure Queries where
  db : db.DBTX
deriving DecidableEq, Repr

/-- The generated constructor `New`. -/
def New (h : db.DBTX) : Queries := ⟨h⟩

end campaignthreads.generated

namespace classifications.generated

/-- Modelled from the spec: the generated row type `VoiceCall` is not among
the sources; the fields are those the source reads, plus the owning thread
(the creation timestamp is left out). -/
structure VoiceCall where
  ID : String
  CampaignThreadID : String
  CalledAt : sql.NullTime
  Transcript : String
  TimeZone : String
deriving DecidableEq, Repr

/-- Modelled from the spec: the generated `InsertClassificationParams`, with
the five fields the source sets. -/
structure InsertClassificationParams where
  ID : String
  CampaignThreadID : String
  Intent : String
  InterestedTime : sql.NullTime
  CallBackTime : sql.NullTime
deriving DecidableEq, Repr

/-- Modelled from the spec: the generated row type `Classification`, with the
fields `ListClassificationsForThread` reads. -/
structure Classification where
  ID : String
  CampaignThreadID : String
  CreatedAt : time.Time
  UpdatedAt : time.Time
  InterestedTime : sql.NullTime
  CallBackTime : sql.NullTime
  Intent : String
deriving DecidableEq, Repr

/-- The generated `Queries`: a handle on which its statements run. -/
structure Queries where
  db : db.DBTX
deriving DecidableEq, Repr

/-- The generated constructor `New`. -/
def New (h : db.DBTX) : Queries := ⟨h⟩

end classifications.generated

/-- The committed contents of the three tables. -/
structure Store where
  threads : List campaignthreads.generated.CampaignThread
  voiceCalls : List classifications.generated.VoiceCall
  classifications : List classifications.generated.Classification
deriving DecidableEq, Repr

/-- A write a statement makes. -/
inductive Write where
  | insertClassification (row : classifications.generated.Classification)
  | updateStatus (arg : campaignthreads.generated.UpdateStatusParams)
deriving DecidableEq, Repr

/-- The effect of a write on the tables: an insert adds the row after the
existing ones; a status update sets the status of every thread with the given
identifier. -/
def Write.apply (s : Store) : Write → Store
  | .insertClassification row => { s with classifications := s.classifications ++ [row] }
  | .updateStatus arg =>
    { s with threads := s.threads.map fun t =>
        if t.ID = arg.ID then { t with Status := arg.Status } else t }

/-- A call that leaves the process: a storage statement (with the handle it
is issued on), a transaction control call, or an invocation of the
classifier. -/
inductive Event where
  | ListThreadsByStatus (h : db.DBTX) (status : String)
  | ListVoiceCallsForThread (h : db.DBTX) (threadID : String)
  | ListClassificationsForThread (h : db.DBTX) (threadID : String)
  | InsertClassification (h : db.DBTX) (arg : classifications.generated.InsertClassificationParams)
  | UpdateStatus (h : db.DBTX) (arg : campaignthreads.generated.UpdateStatusParams)
  | Beginx
  | Commit
  | Rollback
  | Classify (params : voiceclassifier.ClassifyParams)
deriving DecidableEq, Repr

/-- The state the pipeline runs against: the committed tables, the writes
pending in the open transaction (if one is open; the program is sequential and
opens one at a time), the trace of calls made so far and the lines written
with `log.Printf`, both oldest first. -/
structure World where
  store : Store
  tx : Option (List Write)
  trace : List Event
  logs : List String
deriving DecidableEq, Repr

/-- Record a call in the trace. -/
def World.emit (w : World) (e : Event) : World := { w with trace := w.trace ++ [e] }

/-- Go's `log.Printf`, on the formatted line. -/
def World.Printf (w : World) (line : String) : World := { w with logs := w.logs ++ [line] }

/-- The tables as a statement on handle `h` sees them: through the open
transaction, its pending writes are visible. -/
def World.view (w : World) (h : db.DBTX) : Store :=
  match h, w.tx with
  | .Tx, some pending => pending.foldl Write.apply w.store
  | _, _ => w.store

/-- The behaviour of what lies outside the process.  Each answer may depend
on the whole state, trace included, so consecutive calls may be answered
differently.  Nothing is assumed about any of them.
* `fail w e`: whether the storage call `e`, made in state `w`, fails, and with
  which error;
* `uuid w`: the identifier `uuid.New().String()` yields;
* `now w`: the timestamp the database gives a row inserted in state `w`. -/
structure Oracle where
  fail : World → Event → Option String
  uuid : World → String
  now : World → time.Time

/-- The error of a statement on a transaction that is no longer open
(`sql.ErrTxDone`). -/
def sql.ErrTxDone : String := "sql: transaction has already been committed or rolled back"

/-- A write statement `e` with effect `wr`, issued on handle `h`: recorded,
then it fails if the oracle says so; otherwise, on the connection it applies
at once, on the open transaction it is held until commit.  A handle of another
implementation is outside the model: the tables stay as they are. -/
def World.exec (orc : Oracle) (w : World) (h : db.DBTX) (e : Event) (wr : Write) :
    Option String × World :=
  let w1 := w.emit e
  match orc.fail w e with
  | some err => (some err, w1)
  | none =>
    match h with
    | .DB => (none, { w1 with store := wr.apply w1.store })
    | .Tx =>
      match w1.tx with
      | some pending => (none, { w1 with tx := some (pending ++ [wr]) })
      | none => (some sql.ErrTxDone, w1)
    | .other => (none, w1)

/-- A read statement `e` issued on handle `h`: recorded, then it fails if the
oracle says so, and otherwise returns `rows` of the tables as seen on `h`. -/
def World.query {α : Type} (orc : Oracle) (w : World) (h : db.DBTX) (e : Event)
    (rows : Store → List α) : Except String (List α) × World :=
  let w1 := w.emit e
  match orc.fail w e with
  | some err => (.error err, w1)
  | none =>
    match h, w.tx with
    | .Tx, none => (.error sql.ErrTxDone, w1)
    | _, _ => (.ok (rows (w.view h)), w1)

namespace campaignthreads.generated

/-- Modelled from the spec: the generated query `ListThreadsByStatus` is not
among the sources; it lists the threads whose status is the given one, in the
order storage holds them. -/
def ListThreadsByStatus (orc : Oracle) (w : World) (q : Queries)
    (status : String) : Except String (List CampaignThread) × World :=
  w.query orc q.db (.ListThreadsByStatus q.db status)
    fun s => s.threads.filter fun t => t.Status = status

/-- Modelled from the spec: the generated statement `UpdateStatus` is not
among the sources; it updates one thread's status field by identifier. -/
def UpdateStatus (orc : Oracle) (w : World) (q : Queries)
    (arg : UpdateStatusParams) : Option String × World :=
  w.exec orc q.db (.UpdateStatus q.db arg) (.updateStatus arg)

end campaignthreads.generated

namespace classifications.generated

/-- Modelled from the spec: the generated query `ListVoiceCallsForThread` is
not among the sources; it lists the calls of a thread, filtered by thread
identifier, in the order storage holds them. -/
def ListVoiceCallsForThread (orc : Oracle) (w : World) (q : Queries) (threadID : String) :
    Except String (List VoiceCall) × World :=
  w.query orc q.db (.ListVoiceCallsForThread q.db threadID)
    fun s => s.voiceCalls.filter fun c => c.CampaignThreadID = threadID

/-- The row an insert with parameters `arg` creates at the time `now`. -/
def rowFor (now : time.Time) (arg : InsertClassificationParams) : Classification :=
  { ID := arg.ID
    CampaignThreadID := arg.CampaignThreadID
    CreatedAt := now
    UpdatedAt := now
    InterestedTime := arg.InterestedTime
    CallBackTime := arg.CallBackTime
    Intent := arg.Intent }

/-- Modelled from the spec: the generated statement `InsertClassification` is
not among the sources; it inserts one classification row with the identifier,
thread identifier, intent and optional times the caller supplies, the
timestamps being set by the database. -/
def InsertClassification (orc : Oracle) (w : World) (q : Queries)
    (arg : InsertClassificationParams) : Option String × World :=
  w.exec orc q.db (.InsertClassification q.db arg)
    (.insertClassification (rowFor (orc.now w) arg))

end classifications.generated

/-! ## pkg/db and pkg/campaignthreads -/

namespace db

/-- The call `tx.Commit()`: the pending writes are applied to the tables and
the transaction is closed, unless the commit fails, which leaves the
transaction to the deferred rollback. -/
def Commit (orc : Oracle) (w : World) : Option String × World :=
  let w1 := w.emit .Commit
  match w.tx with
  | none => (some sql.ErrTxDone, w1)
  | some pending =>
    match orc.fail w .Commit with
    | some err => (some err, w1)
    | none => (none, { w1 with store := pending.foldl Write.apply w1.store, tx := none })

/-- The deferred function of `WithTx`: `tx.Rollback()` discards the pending
writes and closes the transaction; on a transaction already closed it returns
`sql.ErrTxDone`, which is ignored; any other error is printed. -/
def Rollback (orc : Oracle) (w : World) : World :=
  let w1 := w.emit .Rollback
  match w.tx with
  | none => w1
  | some _ =>
    let w2 := { w1 with tx := none }
    match orc.fail w .Rollback with
    | some err => w2.Printf ("rollback error: " ++ err ++ "\n")
    | none => w2

/-- The function `WithTx`: on a transaction `f` runs in it; on the shared
connection a transaction is begun, `f` runs in it, and it is committed if `f`
succeeds; the deferred rollback runs on every path once the transaction has
begun. -/
def WithTx (orc : Oracle) (w : World) (h : DBTX)
    (f : World → DBTX → Option String × World) : Option String × World :=
  match h with
  | .Tx => f w .Tx
  | .other => (some "db is not a *sqlx.DB", w)
  | .DB =>
    let w1 := w.emit .Beginx
    match orc.fail w .Beginx with
    | some err => (some err, w1)
    | none =>
      match f { w1 with tx := some [] } .Tx with
      | (some err, w2) => (some err, Rollback orc w2)
      | (none, w2) =>
        let (res, w3) := Commit orc w2
        (res, Rollback orc w3)

end db

namespace campaignthreads

/-- The function `campaignthreads.UpdateStatus`. -/
def UpdateStatus (orc : Oracle) (w : World) (tx : db.DBTX) (campaignThreadID : String)
    (status : common.CampaignThreadStatus) : Option String × World :=
  let q := generated.New tx
  match generated.UpdateStatus orc w q { ID := campaignThreadID, Status := status } with
  | (some err, w1) => (some (errors.Wrap err "update status"), w1)
  | (none, w1) => (none, w1)

end campaignthreads

/-! ## cmd/classifier -/

namespace voiceclassifier

/-- An implementation of `ClassifierInterface`, as `processThread` sees it:
asked in some state to classify a call, it returns a result or an error, or
it panics. -/
abbrev ClassifierInterface := World → svc.Env → ClassifyParams → Outcome ClassifyResponse

/-- The type `Classifier`, the implementation of `ClassifierInterface` that
`main` passes on: its method is `Classify`. -/
def Classifier (lib : Lib) : ClassifierInterface :=
  fun _ senv params => (Classify lib senv params).1

end voiceclassifier

namespace main

open voiceclassifier common

/-- The classification parameters `classifyVoiceCall` prepares from a voice
call. -/
def paramsFor (voiceCall : classifications.generated.VoiceCall) : ClassifyParams :=
  { Transcript := voiceCall.Transcript
    Timezone := voiceCall.TimeZone
    CalledAt := voiceCall.CalledAt.Time }

/-- The conversion of an optional time to `sql.NullTime` that
`classifyVoiceCall` applies to both time fields of the result. -/
def nullTimeOf (t : Option time.Time) : sql.NullTime :=
  match t with
  | some t => { Time := t, Valid := true }
  | none => sql.NullTime.null

/-- The row `classifyVoiceCall` asks to insert for a classification result. -/
def insertParamsFor (classificationID threadID : String) (result : ClassifyResponse) :
    classifications.generated.InsertClassificationParams :=
  { ID := classificationID
    CampaignThreadID := threadID
    Intent := result.Intent
    InterestedTime := nullTimeOf result.InterestedTime
    CallBackTime := nullTimeOf result.CallBackTime }

/-- The function `classifyVoiceCall`.  It ends by returning nil (`.ok ()`),
by returning an error, or, when the classifier panics, by that panic. -/
def classifyVoiceCall (orc : Oracle) (senv : svc.Env) (classifier : ClassifierInterface)
    (classificationQueries : classifications.generated.Queries) (w : World)
    (threadID : String) (voiceCall : classifications.generated.VoiceCall) :
    Outcome Unit × World :=
  let params := paramsFor voiceCall
  let w1 := w.emit (.Classify params)
  match classifier w senv params with
  | .panic msg => (.panic msg, w1)
  | .error err => (.error err, w1)
  | .ok result =>
    let classificationID := orc.uuid w1
    match classifications.generated.InsertClassification orc w1 classificationQueries
        (insertParamsFor classificationID threadID result) with
    | (some err, w2) => (.error err, w2)
    | (none, w2) =>
      (.ok (), w2.Printf ("Successfully classified voice call " ++ voiceCall.ID ++
        " with intent " ++ result.Intent))

/-- The loop of `processThread` over the voice calls: each is classified and
its row inserted in turn; the first failure is logged and returned.  A panic
is not caught: it ends the loop at once. -/
def classifyVoiceCalls (orc : Oracle) (senv : svc.Env) (classifier : ClassifierInterface)
    (classificationQueries : classifications.generated.Queries) (threadID : String) :
    World → List classifications.generated.VoiceCall → Outcome Unit × World
  | w, [] => (.ok (), w)
  | w, voiceCall :: rest =>
    match classifyVoiceCall orc senv classifier classificationQueries w threadID voiceCall with
    | (.panic msg, w1) => (.panic msg, w1)
    | (.error err, w1) =>
      (.error err, w1.Printf ("Error classifying voice call " ++ voiceCall.ID ++ ": " ++ err))
    | (.ok _, w1) => classifyVoiceCalls orc senv classifier classificationQueries threadID w1 rest

/-- The function `processThread`. -/
def processThread (orc : Oracle) (senv : svc.Env) (classifier : ClassifierInterface)
    (classificationQueries : classifications.generated.Queries) (w : World)
    (thread : campaignthreads.generated.CampaignThread) : Outcome Unit × World :=
  match classifications.generated.ListVoiceCallsForThread orc w classificationQueries
      thread.ID with
  | (.error err, w1) => (.error err, w1)
  | (.ok voiceCalls, w1) =>
    if voiceCalls.length = 0 then
      (.ok (), w1.Printf ("No voice calls found for thread " ++ thread.ID))
    else
      let w2 := w1.Printf ("Processing " ++ toString voiceCalls.length ++
        " voice calls for thread " ++ thread.ID)
      match classifyVoiceCalls orc senv classifier classificationQueries thread.ID w2
          voiceCalls with
      | (.panic msg, w3) => (.panic msg, w3)
      | (.error err, w3) => (.error err, w3)
      | (.ok _, w3) =>
        match db.WithTx orc w3 senv.DB (fun wt tx =>
            campaignthreads.UpdateStatus orc wt tx thread.ID
              CampaignThreadStatusVoiceCallClassified) with
        | (some err, w4) => (.error err, w4)
        | (none, w4) => (.ok (), w4.Printf ("Successfully classified thread " ++ thread.ID))

/-- The loop of `processUnclassifiedThreads` over the threads: each is
processed in turn; a failure is logged and the loop goes on.  There is no
`recover`: a panic while a thread is processed ends the loop at once. -/
def processThreads (orc : Oracle) (senv : svc.Env) (classifier : ClassifierInterface)
    (classificationQueries : classifications.generated.Queries) :
    World → List campaignthreads.generated.CampaignThread → Outcome Unit × World
  | w, [] => (.ok (), w)
  | w, thread :: rest =>
    match processThread orc senv classifier classificationQueries w thread with
    | (.panic msg, w1) => (.panic msg, w1)
    | (.error err, w1) =>
      processThreads orc senv classifier classificationQueries
        (w1.Printf ("Error processing thread " ++ thread.ID ++ ": " ++ err)) rest
    | (.ok _, w1) => processThreads orc senv classifier classificationQueries w1 rest

/-- The function `processUnclassifiedThreads`. -/
def processUnclassifiedThreads (orc : Oracle) (senv : svc.Env)
    (classifier : ClassifierInterface) (w : World) : Outcome Unit × World :=
  let campaignQueries := campaignthreads.generated.New senv.DB
  match campaignthreads.generated.ListThreadsByStatus orc w campaignQueries
      CampaignThreadStatusVoiceCallUnclassified with
  | (.error err, w1) => (.error err, w1)
  | (.ok unclassifiedThreads, w1) =>
    if unclassifiedThreads.length = 0 then (.ok (), w1)
    else
      let w2 := w1.Printf ("Found " ++ toString unclassifiedThreads.length ++
        " unclassified threads to process")
      let classificationQueries := classifications.generated.New senv.DB
      match processThreads orc senv classifier classificationQueries w2
          unclassifiedThreads with
      | (.panic msg, w3) => (.panic msg, w3)
      | (_, w3) => (.ok (), w3)

end main

/-! ## pkg/classifications and pkg/api: the read endpoint -/

namespace db

/-- The function `FromNullTime` (pkg/db/utils.go). -/
def FromNullTime (s : sql.NullTime) : Option time.Time :=
  if s.Valid then some s.Time else none

/-- The function `ToNullTime` (pkg/db/utils.go). -/
def ToNullTime (t : Option time.Time) : sql.NullTime :=
  match t with
  | none => sql.NullTime.null
  | some t => { Time := t, Valid := true }

/-- The function `WithTx` applied to a function that, besides returning an
error, assigns its result to a variable of the caller, as the closure of the
read endpoint does: the value assigned is returned when `WithTx` returns nil.
The control flow is that of `WithTx` above. -/
def WithTxResult {α : Type} (orc : Oracle) (w : World) (h : DBTX)
    (f : World → DBTX → Except String α × World) : Except String α × World :=
  match h with
  | .Tx => f w .Tx
  | .other => (.error "db is not a *sqlx.DB", w)
  | .DB =>
    let w1 := w.emit .Beginx
    match orc.fail w .Beginx with
    | some err => (.error err, w1)
    | none =>
      match f { w1 with tx := some [] } .Tx with
      | (.error err, w2) => (.error err, Rollback orc w2)
      | (.ok a, w2) =>
        match Commit orc w2 with
        | (some err, w3) => (.error err, Rollback orc w3)
        | (none, w3) => (.ok a, Rollback orc w3)

end db

namespace common

/-- The type `common.Classification`; a nil `*time.Time` is `none`. -/
structure Classification where
  ID : String
  CampaignThreadID : String
  CreatedAt : time.Time
  UpdatedAt : time.Time
  InterestedTime : Option time.Time
  CallBackTime : Option time.Time
  Intent : Intent
deriving DecidableEq, Repr

end common

namespace classifications.generated

/-- Modelled from the spec: the generated query `ListClassificationsForThread`
is not among the sources; it lists the classifications of a thread, filtered
by thread identifier, in the order storage holds them. -/
def ListClassificationsForThread (orc : Oracle) (w : World) (q : Queries)
    (threadID : String) : Except String (List Classification) × World :=
  w.query orc q.db (.ListClassificationsForThread q.db threadID)
    fun s => s.classifications.filter fun r => r.CampaignThreadID = threadID

end classifications.generated

namespace classifications

/-- The function `classifications.ListClassificationsForThread`. -/
def ListClassificationsForThread (orc : Oracle) (w : World) (tx : db.DBTX)
    (threadID : String) : Except String (List common.Classification) × World :=
  let q := generated.New tx
  match generated.ListClassificationsForThread orc w q threadID with
  | (.error err, w1) => (.error (errors.Wrap err "list classifications for thread"), w1)
  | (.ok rows, w1) =>
    (.ok (rows.map fun row =>
      { ID := row.ID
        CampaignThreadID := row.CampaignThreadID
        CreatedAt := row.CreatedAt
        UpdatedAt := row.UpdatedAt
        InterestedTime := db.FromNullTime row.InterestedTime
        CallBackTime := db.FromNullTime row.CallBackTime
        Intent := row.Intent }), w1)

end classifications

namespace url

/-- Go's `url.Values`: the parameters of a query string, in order. -/
abbrev Values := List (String × String)

/-- Go's `url.Values.Get`: the first value under `key`, or the empty string
when there is none. -/
def Values.Get (v : Values) (key : String) : String :=
  match v.find? fun p => p.1 = key with
  | some p => p.2
  | none => ""

/-- The parts of a `url.URL` the endpoint depends on: the path, and the query
string as `URL.Query()` parses it. -/
structure URL where
  Path : String
  Query : Values
deriving DecidableEq, Repr

end url

namespace http

/-- The parts of an `http.Request` the endpoint depends on: the method, the
URL, and the route variables the router stores in the request's context
(what `mux.Vars` returns). -/
structure Request where
  Method : String
  URL : url.URL
  Vars : List (String × String)
deriving DecidableEq, Repr

/-- What is written to the `http.ResponseWriter`: plain text, or a value
encoded as JSON. -/
inductive Body where
  | text (s : String)
  | json (v : json.Value)

/-- The response written: status code and body. -/
structure Response where
  StatusCode : Nat
  Body : Body

end http

namespace api

/-- The type `ListClassificationsForThreadResponse`. -/
structure ListClassificationsForThreadResponse where
  Classifications : List common.Classification
deriving DecidableEq, Repr

/-- The function `ListClassificationsForThreadHandler`. -/
def ListClassificationsForThreadHandler (orc : Oracle) (senv : svc.Env) (w : World)
    (r : http.Request) : Except String ListClassificationsForThreadResponse × World :=
  match db.WithTxResult orc w senv.DB (fun wt tx =>
      classifications.ListClassificationsForThread orc wt tx
        (r.URL.Query.Get "thread_id")) with
  | (.error err, w1) => (.error err, w1)
  | (.ok ret, w1) => (.ok { Classifications := ret }, w1)

/-- The JSON encoding of a `common.Classification` by its field tags;
`marshalTime` is the text `time.Time.MarshalJSON` gives a time, and a nil time
is encoded as `null`. -/
def encodeClassification (marshalTime : time.Time → String) (c : common.Classification) :
    json.Value :=
  let optTime : Option time.Time → json.Value := fun t =>
    match t with
    | some t => .string (marshalTime t)
    | none => .null
  .object
    [ ("id", .string c.ID),
      ("campaignThreadID", .string c.CampaignThreadID),
      ("createdAt", .string (marshalTime c.CreatedAt)),
      ("updatedAt", .string (marshalTime c.UpdatedAt)),
      ("interestedTime", optTime c.InterestedTime),
      ("callBackTime", optTime c.CallBackTime),
      ("intent", .string c.Intent) ]

/-- The JSON encoding of a `ListClassificationsForThreadResponse` by its field
tag. -/
def encodeResponse (marshalTime : time.Time → String)
    (res : ListClassificationsForThreadResponse) : json.Value :=
  .object [("classifications", .array (res.Classifications.map (encodeClassification
    marshalTime)))]

/-- The functions `HandleWithResponse` and `Handle`, for the handler of the
read endpoint: an error of the handler is answered with status 500 and the
error text, a result with its JSON encoding. -/
def HandleWithResponse (marshalTime : time.Time → String) (orc : Oracle) (senv : svc.Env)
    (w : World) (r : http.Request) : http.Response × World :=
  match ListClassificationsForThreadHandler orc senv w r with
  | (.error err, w1) => (⟨500, .text (err ++ "\n")⟩, w1)
  | (.ok res, w1) => (⟨200, .json (encodeResponse marshalTime res)⟩, w1)

/-- The match of a request path against the route template
`/classifications/{thread_id}`: the path is `/classifications/` followed by
one non-empty segment without a slash, which becomes the route variable
`thread_id`. -/
def routeVars (path : String) : Option (List (String × String)) :=
  let lead := "/classifications/".data
  if lead.isPrefixOf path.data then
    let segment := path.data.drop lead.length
    if segment ≠ [] ∧ '/' ∉ segment then some [("thread_id", String.mk segment)] else none
  else none

/-- The function `Router`: a GET request whose path matches the route is
handed, with its route variables, to the handler; any other request is not
served by this route (`none`). -/
def Router (marshalTime : time.Time → String) (orc : Oracle) (senv : svc.Env) (w : World)
    (r : http.Request) : Option (http.Response × World) :=
  if r.Method = "GET" then
    match routeVars r.URL.Path with
    | some vars => some (HandleWithResponse marshalTime orc senv w { r with Vars := vars })
    | none => none
  else none

end api

/-! ## Reading a trace -/

/-- The invocations of the classifier in a trace, in order. -/
def classifyEvents (tr : List Event) : List voiceclassifier.ClassifyParams :=
  tr.filterMap fun e => match e with
    | .Classify p => some p
    | _ => none

/-- The classification inserts issued in a trace, in order, each with the
handle it was issued on. -/
def insertEvents (tr : List Event) :
    List (db.DBTX × classifications.generated.InsertClassificationParams) :=
  tr.filterMap fun e => match e with
    | .InsertClassification h arg => some (h, arg)
    | _ => none

/-- The status updates issued in a trace, in order, each with the handle it
was issued on. -/
def updateEvents (tr : List Event) :
    List (db.DBTX × campaignthreads.generated.UpdateStatusParams) :=
  tr.filterMap fun e => match e with
    | .UpdateStatus h arg => some (h, arg)
    | _ => none

/-- The threads whose voice calls were listed in a trace, in order.
`processThread` begins by listing the calls of its thread, so these are the
threads `processThread` was invoked on. -/
def listCallsEvents (tr : List Event) : List String :=
  tr.filterMap fun e => match e with
    | .ListVoiceCallsForThread _ threadID => some threadID
    | _ => none

/-- The threads whose classifications were listed in a trace, in order: the
thread identifiers passed to the repository. -/
def listClassificationsEvents (tr : List Event) : List String :=
  tr.filterMap fun e => match e with
    | .ListClassificationsForThread _ threadID => some threadID
    | _ => none

/-! ## Concrete collaborators for the examples -/

namespace sample

open voiceclassifier

/-- Asia/Singapore as the zone table holds it for 2024: UTC+8 throughout. -/
def singapore : time.Location := ⟨"Asia/Singapore", 28800, []⟩

/-- America/New_York as the zone table holds it for 2024: EST (UTC-5) until
2024-03-10 07:00:00 UTC, EDT (UTC-4) until 2024-11-03 06:00:00 UTC, EST
after. -/
def newYork : time.Location :=
  ⟨"America/New_York", -18000, [⟨1710054000, -14400⟩, ⟨1730613600, -18000⟩]⟩

/-- A decoder that knows the JSON texts of the examples: an object with one
string field, the empty object, and an object whose `intent` is a number. -/
def unmarshal (s : String) : Except String json.Object :=
  if s = "\x7b\"intent\": \"voice_wants_call_back\"\x7d" then
    .ok fun k => if k = "intent" then some (.string "voice_wants_call_back") else none
  else if s = "\x7b\"intent\": \"voice_interested\"\x7d" then
    .ok fun k => if k = "intent" then some (.string "voice_interested") else none
  else if s = "\x7b\"intent\": \"voice_not_interested\"\x7d" then
    .ok fun k => if k = "intent" then some (.string "voice_not_interested") else none
  else if s = "\x7b\"intent\": 7\x7d" then
    .ok fun k => if k = "intent" then some (.number "7") else none
  else if s = "\x7b\x7d" then .ok fun _ => none
  else if s = "\x7b\"agreedDatetime\": \"2024-01-11T15:00:00\"\x7d" then
    .ok fun k => if k = "agreedDatetime" then some (.string "2024-01-11T15:00:00") else none
  else if s = "\x7b\"agreedDatetime\": \"2024-03-10T02:30:00\"\x7d" then
    .ok fun k => if k = "agreedDatetime" then some (.string "2024-03-10T02:30:00") else none
  else .error "invalid character"

/-- A zone loader that knows two zones. -/
def loadLocation (name : String) : Except String time.Location :=
  if name = "Asia/Singapore" then .ok singapore
  else if name = "America/New_York" then .ok newYork
  else .error ("unknown time zone " ++ name)

def lib : Lib := ⟨unmarshal, loadLocation⟩

/-- A response with one choice holding `content`. -/
def reply (content : String) : Except String openai.ChatCompletionResponse :=
  .ok ⟨[⟨⟨openai.ChatMessageRoleAssistant, content⟩⟩]⟩

/-- An endpoint that answers the first request of a classification with
`first` and any later one with `second`. -/
def client (first second : String) : openai.Client :=
  fun earlier _ => if earlier = [] then reply first else reply second

/-- An endpoint that answers without error and with no choice at all. -/
def clientNoChoice : openai.Client := fun _ _ => .ok ⟨[]⟩

/-- Scenario B of the specification: a call placed at 2024-01-10 10:00:00 in
Asia/Singapore. -/
def paramsB : ClassifyParams :=
  { Transcript := "User: Call me back tomorrow around 3"
    Timezone := "Asia/Singapore"
    CalledAt := ⟨1704852000, 0, time.UTC⟩ }

/-- The endpoint of scenario B. -/
def envB : svc.Env :=
  { OpenAIClient := client "\x7b\"intent\": \"voice_wants_call_back\"\x7d"
      "\x7b\"agreedDatetime\": \"2024-01-11T15:00:00\"\x7d"
    DB := .DB }

/-- The result of scenario B: a call back at 2024-01-11 15:00:00 in
Asia/Singapore, which is the instant 2024-01-11 07:00:00 UTC. -/
def resultB : ClassifyResponse :=
  { Intent := "voice_wants_call_back"
    InterestedTime := none
    CallBackTime := some ⟨1704956400, 0, singapore⟩ }

/-- A call whose timezone name is no IANA location. -/
def paramsMars : ClassifyParams :=
  { Transcript := "User: No thanks, not interested"
    Timezone := "Mars/Colony"
    CalledAt := ⟨1704852000, 0, time.UTC⟩ }

/-- An endpoint whose only answer is `content`. -/
def envSaying (content : String) : svc.Env :=
  { OpenAIClient := client content content, DB := .DB }

/-- A call from New York. -/
def paramsNY : ClassifyParams :=
  { Transcript := "User: Yes, I am interested, let us meet on Sunday at half past two"
    Timezone := "America/New_York"
    CalledAt := ⟨1709906400, 0, time.UTC⟩ }

/-- An endpoint that classifies the call as interested and extracts the
date-time 2024-03-10T02:30:00, a clock reading that New York skipped: at
02:00 that night its clocks went to 03:00. -/
def envGap : svc.Env :=
  { OpenAIClient := client "\x7b\"intent\": \"voice_interested\"\x7d"
      "\x7b\"agreedDatetime\": \"2024-03-10T02:30:00\"\x7d"
    DB := .DB }

/-- The time `Classify` returns for that reading: the instant 2024-03-10
06:30:00 UTC, which in New York is 01:30:00 EST. -/
def gapTime : time.Time := ⟨1710052200, 0, newYork⟩

/-- A thread awaiting classification. -/
def thread1 : campaignthreads.generated.CampaignThread :=
  ⟨"t1", common.CampaignThreadStatusVoiceCallUnclassified⟩

def call1 : classifications.generated.VoiceCall :=
  ⟨"c1", "t1", sql.NullTime.null, "User: No thanks, not interested", "Asia/Singapore"⟩

def call2 : classifications.generated.VoiceCall :=
  ⟨"c2", "t1", sql.NullTime.null, "User: Who is this?", "Asia/Singapore"⟩

/-- A database holding `thread1` with its two calls and no classification,
before anything has run. -/
def world0 : World :=
  { store := ⟨[thread1], [call1, call2], []⟩, tx := none, trace := [], logs := [] }

/-- A database holding `thread1` without any call. -/
def worldNoCalls : World :=
  { store := ⟨[thread1], [], []⟩, tx := none, trace := [], logs := [] }

/-- A second thread awaiting classification, with one call. -/
def thread2 : campaignthreads.generated.CampaignThread :=
  ⟨"t2", common.CampaignThreadStatusVoiceCallUnclassified⟩

def call3 : classifications.generated.VoiceCall :=
  ⟨"c3", "t2", sql.NullTime.null, "User: Please stop calling me", "Asia/Singapore"⟩

/-- A database holding `thread1` with its two calls and `thread2` with its
one call, and no classification, before anything has run. -/
def worldTwo : World :=
  { store := ⟨[thread1, thread2], [call1, call2, call3], []⟩, tx := none, trace := [],
    logs := [] }

/-- Storage that never fails; row identifiers count the calls made so far. -/
def oracleOk : Oracle :=
  { fail := fun _ _ => none
    uuid := fun w => "row-" ++ toString w.trace.length
    now := fun _ => time.Time.zero }

/-- Storage on which no transaction can be begun and nothing else fails. -/
def oracleNoBegin : Oracle :=
  { oracleOk with fail := fun _ e => if e = .Beginx then some "connection refused" else none }

/-- A classifier that answers `voice_not_interested` to every call. -/
def classifierOk : ClassifierInterface :=
  fun _ _ _ => .ok ⟨common.IntentVoiceNotInterested, none, none⟩

/-- A classifier that fails on the call "User: Who is this?" as long as it has
been invoked fewer than three times, and otherwise answers
`voice_not_interested`: the second call of `thread1` fails in the first run
and succeeds in the second. -/
def classifierFlaky : ClassifierInterface :=
  fun w _ p =>
    if p.Transcript = "User: Who is this?" ∧ (classifyEvents w.trace).length < 3 then
      .error "openai create chat completion: timeout"
    else .ok ⟨common.IntentVoiceNotInterested, none, none⟩

/-- The service environment of `cmd/classifier`: the shared connection. -/
def senv : svc.Env := { OpenAIClient := clientNoChoice, DB := .DB }

/-- The queries `processUnclassifiedThreads` builds on the shared connection. -/
def queries : classifications.generated.Queries := classifications.generated.New senv.DB

/-- The state once `processThread` has listed the calls of `thread1` in
`world0` and logged their number. -/
def started : World :=
  (world0.emit (.ListVoiceCallsForThread .DB "t1")).Printf
    "Processing 2 voice calls for thread t1"

/-- The state after `call1` has been classified and inserted, with the flaky
classifier. -/
def afterCall1 : World :=
  (main.classifyVoiceCall oracleOk senv classifierFlaky queries started "t1" call1).2

/-- The state after the classification of `call2` has then failed. -/
def afterCall2 : World :=
  (main.classifyVoiceCall oracleOk senv classifierFlaky queries afterCall1 "t1" call2).2

/-- The state after both calls have been classified and inserted, with the
classifier that never fails. -/
def afterBoth : World :=
  (main.classifyVoiceCalls oracleOk senv classifierOk queries "t1" started [call1, call2]).2

/-- A first run of `processThread` on `thread1`, in which the second call
fails. -/
def run1 : Outcome Unit × World :=
  main.processThread oracleOk senv classifierFlaky queries world0 thread1

/-- The retry: a second run of `processThread` on `thread1`, from the state
the first run left. -/
def run2 : Outcome Unit × World :=
  main.processThread oracleOk senv classifierFlaky queries run1.2 thread1

/-- A run of `processUnclassifiedThreads` over the two threads of `worldTwo`,
in which the second call of `thread1` fails. -/
def runTwo : Outcome Unit × World :=
  main.processUnclassifiedThreads oracleOk senv classifierFlaky worldTwo

/-- A run of `processUnclassifiedThreads` over the two threads of `worldTwo`
with the classifier of the program, the endpoint answering every request
without error and with an empty list of choices. -/
def runNoChoice : Outcome Unit × World :=
  main.processUnclassifiedThreads oracleOk senv (voiceclassifier.Classifier lib) worldTwo

/-- A decoder that also knows the stage-2 answers without a date: the
`agreedDatetime` is the string "null" or the empty string. -/
def unmarshalNoDate (s : String) : Except String json.Object :=
  if s = "\x7b\"agreedDatetime\": \"null\"\x7d" then
    .ok fun k => if k = "agreedDatetime" then some (.string "null") else none
  else if s = "\x7b\"agreedDatetime\": \"\"\x7d" then
    .ok fun k => if k = "agreedDatetime" then some (.string "") else none
  else unmarshal s

def libNoDate : Lib := ⟨unmarshalNoDate, loadLocation⟩

/-- An endpoint that classifies the call as interested and then reports that
no date was agreed. -/
def envNoDate : svc.Env :=
  { OpenAIClient := client "\x7b\"intent\": \"voice_interested\"\x7d"
      "\x7b\"agreedDatetime\": \"null\"\x7d"
    DB := .DB }

/-- A database in which `thread1` has one classification row. -/
def worldWithRow : World :=
  { store := ⟨[thread1], [call1],
      [⟨"row-1", "t1", time.Time.zero, time.Time.zero, sql.NullTime.null, sql.NullTime.null,
        "voice_not_interested"⟩]⟩
    tx := none, trace := [], logs := [] }

/-- The request `GET /classifications/t1`, without a query string. -/
def requestPath : http.Request :=
  { Method := "GET", URL := ⟨"/classifications/t1", []⟩, Vars := [] }

/-- The request `GET /classifications/t1?thread_id=t1`. -/
def requestQuery : http.Request :=
  { Method := "GET", URL := ⟨"/classifications/t1", [("thread_id", "t1")]⟩, Vars := [] }

/-- A stand-in for `time.Time.MarshalJSON`. -/
def marshalTime (t : time.Time) : String := toString t.sec

end sample

/-! ## Theorems -/

/-! ### The calendar: reading back what `time.Date` was given -/

namespace time

theorem yearDay_core (a b c e yd : Int) (hb : 0 ≤ b ∧ b ≤ 3) (hc : 0 ≤ c ∧ c ≤ 24)
    (he : 0 ≤ e ∧ e ≤ 3) (hyd : 0 ≤ yd)
    (hlt : yd < 365 ∨ (yd = 365 ∧ e = 3 ∧ (c ≠ 24 ∨ b = 3)))
    (d : Int) (hd : d = 146097 * a + 36524 * b + 1461 * c + 365 * e + yd) :
    d / 146097 = a ∧
    (d - 146097 * a) / 36524 - (d - 146097 * a) / 36524 / 4 = b ∧
    (d - 146097 * a - 36524 * b) / 1461 = c ∧
    (d - 146097 * a - 36524 * b - 1461 * c) / 365
      - (d - 146097 * a - 36524 * b - 1461 * c) / 365 / 4 = e := by
  subst hd
  refine ⟨by omega, ?_, by omega, ?_⟩
  · have h : (146097 * a + 36524 * b + 1461 * c + 365 * e + yd - 146097 * a) / 36524 = b ∨
        ((146097 * a + 36524 * b + 1461 * c + 365 * e + yd - 146097 * a) / 36524 = 4 ∧ b = 3) := by
      omega
    rcases h with h | ⟨h, h3⟩
    · rw [h]; omega
    · rw [h, h3]; rfl
  · have h : (146097 * a + 36524 * b + 1461 * c + 365 * e + yd - 146097 * a - 36524 * b
          - 1461 * c) / 365 = e ∨
        ((146097 * a + 36524 * b + 1461 * c + 365 * e + yd - 146097 * a - 36524 * b
          - 1461 * c) / 365 = 4 ∧ e = 3) := by
      omega
    rcases h with h | ⟨h, h3⟩
    · rw [h]; omega
    · rw [h, h3]; rfl

theorem isLeap_iff (y : Int) :
    isLeap y = true ↔ y % 4 = 0 ∧ (y % 100 ≠ 0 ∨ y % 400 = 0) := by
  simp [isLeap]

/-- `absYearDay` inverts `daysSinceEpoch`: a clock reading on day `yd` of year
`y` is read back as year `y`, day `yd`. -/
theorem absYearDay_eq (y yd secs : Int) (hyd : 0 ≤ yd)
    (hlt : yd < 365 ∨ (yd = 365 ∧ isLeap y = true)) (hs : 0 ≤ secs ∧ secs < 86400) :
    absYearDay ((daysSinceEpoch y + yd) * secondsPerDay + secs) = (y, yd) := by
  rw [isLeap_iff] at hlt
  obtain ⟨Y, hY⟩ : ∃ Y, Y = y - absoluteZeroYear := ⟨_, rfl⟩
  obtain ⟨a, ha⟩ : ∃ a, a = Y / 400 := ⟨_, rfl⟩
  obtain ⟨b, hb⟩ : ∃ b, b = (Y - 400 * a) / 100 := ⟨_, rfl⟩
  obtain ⟨c, hc⟩ : ∃ c, c = (Y - 400 * a - 100 * b) / 4 := ⟨_, rfl⟩
  obtain ⟨e, he⟩ : ∃ e, e = Y - 400 * a - 100 * b - 4 * c := ⟨_, rfl⟩
  have hdse : daysSinceEpoch y = 146097 * a + 36524 * b + 1461 * c + 365 * e := by
    simp only [daysSinceEpoch, daysPer400Years, daysPer100Years, daysPer4Years]
    rw [← hY, ← ha, ← hb, ← hc, ← he]
  have hbb : 0 ≤ b ∧ b ≤ 3 := by omega
  have hcb : 0 ≤ c ∧ c ≤ 24 := by omega
  have heb : 0 ≤ e ∧ e ≤ 3 := by omega
  have hyY : y = 400 * a + 100 * b + 4 * c + e + absoluteZeroYear := by omega
  have hleap : yd < 365 ∨ (yd = 365 ∧ e = 3 ∧ (c ≠ 24 ∨ b = 3)) := by
    simp only [absoluteZeroYear] at hyY
    omega
  obtain ⟨d, hd⟩ : ∃ d, d = 146097 * a + 36524 * b + 1461 * c + 365 * e + yd := ⟨_, rfl⟩
  obtain ⟨h1, h2, h3, h4⟩ := yearDay_core a b c e yd hbb hcb heb hyd hleap d hd
  have hdiv : ((daysSinceEpoch y + yd) * secondsPerDay + secs) / secondsPerDay = d := by
    simp only [secondsPerDay]
    rw [hdse, ← hd]; omega
  simp only [absYearDay, hdiv, daysPer400Years, daysPer100Years, daysPer4Years, h1, h2, h3, h4]
  rw [hyY]
  congr 1
  omega

theorem monthDay_plain (y mo d day : Int) (hmo : 1 ≤ mo ∧ mo ≤ 12) (hd1 : 1 ≤ d)
    (hdmax : d ≤ daysBefore mo - daysBefore (mo - 1))
    (hday : day = daysBefore (mo - 1) + (d - 1)) :
    (if day ≥ daysBefore (day / 31 + 1) then
        (y, day / 31 + 2, day - daysBefore (day / 31 + 1) + 1)
      else (y, day / 31 + 1, day - daysBefore (day / 31) + 1)) = (y, mo, d) := by
  obtain ⟨hlo, hhi⟩ := hmo
  have hcases : mo = 1 ∨ mo = 2 ∨ mo = 3 ∨ mo = 4 ∨ mo = 5 ∨ mo = 6 ∨ mo = 7 ∨ mo = 8 ∨
      mo = 9 ∨ mo = 10 ∨ mo = 11 ∨ mo = 12 := by omega
  obtain ⟨q, hq⟩ : ∃ q, q = day / 31 := ⟨_, rfl⟩
  rw [← hq]
  rcases hcases with h | h | h | h | h | h | h | h | h | h | h | h <;> subst h <;>
    simp [daysBefore] at hdmax hday <;>
    (have hq2 : q = 0 ∨ q = 1 ∨ q = 2 ∨ q = 3 ∨ q = 4 ∨ q = 5 ∨ q = 6 ∨ q = 7 ∨ q = 8 ∨
      q = 9 ∨ q = 10 ∨ q = 11 := by omega) <;>
    rcases hq2 with h | h | h | h | h | h | h | h | h | h | h | h <;> subst h <;>
    first
      | (exfalso; omega)
      | (simp only [daysBefore]; norm_num; split_ifs <;>
          first
            | (exfalso; omega)
            | (simp only [Prod.mk.injEq, true_and]; omega))


theorem daysBefore_table (mo : Int) (hmo : 1 ≤ mo ∧ mo ≤ 12) :
    (mo = 1 ∧ daysBefore (mo - 1) = 0 ∧ daysBefore mo = 31) ∨
    (mo = 2 ∧ daysBefore (mo - 1) = 31 ∧ daysBefore mo = 59) ∨
    (mo = 3 ∧ daysBefore (mo - 1) = 59 ∧ daysBefore mo = 90) ∨
    (mo = 4 ∧ daysBefore (mo - 1) = 90 ∧ daysBefore mo = 120) ∨
    (mo = 5 ∧ daysBefore (mo - 1) = 120 ∧ daysBefore mo = 151) ∨
    (mo = 6 ∧ daysBefore (mo - 1) = 151 ∧ daysBefore mo = 181) ∨
    (mo = 7 ∧ daysBefore (mo - 1) = 181 ∧ daysBefore mo = 212) ∨
    (mo = 8 ∧ daysBefore (mo - 1) = 212 ∧ daysBefore mo = 243) ∨
    (mo = 9 ∧ daysBefore (mo - 1) = 243 ∧ daysBefore mo = 273) ∨
    (mo = 10 ∧ daysBefore (mo - 1) = 273 ∧ daysBefore mo = 304) ∨
    (mo = 11 ∧ daysBefore (mo - 1) = 304 ∧ daysBefore mo = 334) ∨
    (mo = 12 ∧ daysBefore (mo - 1) = 334 ∧ daysBefore mo = 365) := by
  obtain ⟨hlo, hhi⟩ := hmo
  have hcases : mo = 1 ∨ mo = 2 ∨ mo = 3 ∨ mo = 4 ∨ mo = 5 ∨ mo = 6 ∨ mo = 7 ∨ mo = 8 ∨
      mo = 9 ∨ mo = 10 ∨ mo = 11 ∨ mo = 12 := by omega
  rcases hcases with h | h | h | h | h | h | h | h | h | h | h | h <;> subst h <;>
    simp [daysBefore]

theorem norm_id (hi lo base : Int) (h0 : 0 ≤ lo) (h1 : lo < base) :
    norm hi lo base = (hi, lo) := by
  have h2 : ¬ lo < 0 := by omega
  have h3 : ¬ lo ≥ base := by omega
  simp [norm, h2, h3]

/-- On fields that are in range `Date` normalises nothing: the clock reading
is the day count of the date times 86400 plus the seconds of the day. -/
theorem dateAbs_valid (y mo d h mi s ns : Int) (hmo : 1 ≤ mo ∧ mo ≤ 12)
    (hh : 0 ≤ h ∧ h < 24) (hmi : 0 ≤ mi ∧ mi < 60) (hs : 0 ≤ s ∧ s < 60)
    (hns : 0 ≤ ns ∧ ns < 1000000000) :
    dateAbs y mo d h mi s ns =
      ((daysSinceEpoch y + (daysBefore (mo - 1) + (if isLeap y = true ∧ mo ≥ 3 then 1 else 0)
          + (d - 1))) * secondsPerDay + (h * 3600 + mi * 60 + s), ns) := by
  unfold dateAbs
  rw [norm_id y (mo - 1) 12 (by omega) (by omega), norm_id s ns 1000000000 hns.1 hns.2]
  simp only []
  rw [norm_id mi s 60 hs.1 hs.2]
  simp only []
  rw [norm_id h mi 60 hmi.1 hmi.2]
  simp only []
  rw [norm_id d h 24 hh.1 hh.2]
  simp only [secondsPerHour, secondsPerMinute, sub_add_cancel]
  congr 1
  split_ifs <;> ring

/-- Reading back a date: `absDate` returns the year, month and day that
`Date` was given, when they form a date of the calendar. -/
theorem absDate_roundtrip (y mo d secs : Int) (hmo : 1 ≤ mo ∧ mo ≤ 12)
    (hd : 1 ≤ d ∧ d ≤ daysIn mo y) (hsecs : 0 ≤ secs ∧ secs < 86400) :
    absDate ((daysSinceEpoch y + (daysBefore (mo - 1) +
      (if isLeap y = true ∧ mo ≥ 3 then 1 else 0) + (d - 1))) * secondsPerDay + secs) =
      (y, mo, d) := by
  have htab := daysBefore_table mo hmo
  obtain ⟨hd1, hdmax⟩ := hd
  unfold daysIn at hdmax
  obtain ⟨yd, hyd⟩ : ∃ yd, yd = daysBefore (mo - 1) +
      (if isLeap y = true ∧ mo ≥ 3 then 1 else 0) + (d - 1) := ⟨_, rfl⟩
  rw [← hyd]
  obtain ⟨p, hp⟩ : ∃ p, p = daysBefore (mo - 1) := ⟨_, rfl⟩
  obtain ⟨n, hn⟩ : ∃ n, n = daysBefore mo := ⟨_, rfl⟩
  rw [← hp] at hyd htab hdmax
  rw [← hn] at htab hdmax
  have hyd0 : 0 ≤ yd ∧ (yd < 365 ∨ (yd = 365 ∧ isLeap y = true)) := by
    cases hl : isLeap y
    · simp [hl] at hdmax hyd ⊢
      omega
    · simp [hl] at hdmax hyd ⊢
      split_ifs at hdmax hyd <;> omega
  rw [absDate, absYearDay_eq y yd secs hyd0.1 hyd0.2 hsecs]
  simp only []
  by_cases hf : isLeap y = true ∧ mo = 2 ∧ d = 29
  · obtain ⟨hl, hm, hdd⟩ := hf
    have h59 : yd = 31 + 29 - 1 := by
      simp [hl] at hyd
      split_ifs at hyd <;> omega
    rw [if_pos ⟨hl, h59⟩, hm, hdd]
  · have hnot : ¬ (isLeap y = true ∧ yd = 31 + 29 - 1) := by
      rintro ⟨hl, h59⟩
      refine hf ⟨hl, ?_⟩
      simp [hl] at hyd hdmax
      split_ifs at hyd hdmax <;> omega
    rw [if_neg hnot]
    have hday : (if isLeap y = true ∧ yd > 31 + 29 - 1 then yd - 1 else yd) =
        daysBefore (mo - 1) + (d - 1) := by
      rw [← hp]
      cases hl : isLeap y
      · simp [hl] at hyd ⊢
        omega
      · simp [hl] at hyd hdmax hnot ⊢
        split_ifs at hyd hdmax <;> split_ifs <;> omega
    have hdmax2 : d ≤ daysBefore mo - daysBefore (mo - 1) := by
      rw [← hp, ← hn]
      cases hl : isLeap y
      · simp [hl] at hdmax
        omega
      · simp [hl] at hdmax hf
        split_ifs at hdmax <;> omega
    simp only [hday]
    exact monthDay_plain y mo d _ hmo hd1 hdmax2 rfl

/-- Reading back a clock: `absClock` returns the hour, minute and second that
`Date` was given. -/
theorem absClock_roundtrip (days h mi s : Int) (hh : 0 ≤ h ∧ h < 24)
    (hmi : 0 ≤ mi ∧ mi < 60) (hs : 0 ≤ s ∧ s < 60) :
    absClock (days * secondsPerDay + (h * 3600 + mi * 60 + s)) = (h, mi, s) := by
  simp only [absClock, secondsPerDay, secondsPerHour, secondsPerMinute]
  have h1 : (days * 86400 + (h * 3600 + mi * 60 + s)) % 86400 = h * 3600 + mi * 60 + s := by
    omega
  rw [h1]
  have h2 : (h * 3600 + mi * 60 + s) / 3600 = h := by omega
  rw [h2]
  have h3 : (h * 3600 + mi * 60 + s - h * 3600) / 60 = mi := by omega
  rw [h3]
  simp only [Prod.mk.injEq, true_and]
  omega

/-- For a four-digit year the clock reading fits in an unsigned 64-bit
value. -/
theorem daysSinceEpoch_bounds (y : Int) (hy : 0 ≤ y ∧ y ≤ 9999) :
    106751990000000 ≤ daysSinceEpoch y ∧ daysSinceEpoch y ≤ 106751995000000 := by
  obtain ⟨Y, hY⟩ : ∃ Y, Y = y - absoluteZeroYear := ⟨_, rfl⟩
  obtain ⟨a, ha⟩ : ∃ a, a = Y / 400 := ⟨_, rfl⟩
  obtain ⟨b, hb⟩ : ∃ b, b = (Y - 400 * a) / 100 := ⟨_, rfl⟩
  obtain ⟨c, hc⟩ : ∃ c, c = (Y - 400 * a - 100 * b) / 4 := ⟨_, rfl⟩
  obtain ⟨e, he⟩ : ∃ e, e = Y - 400 * a - 100 * b - 4 * c := ⟨_, rfl⟩
  have hdse : daysSinceEpoch y = 146097 * a + 36524 * b + 1461 * c + 365 * e := by
    simp only [daysSinceEpoch, daysPer400Years, daysPer100Years, daysPer4Years]
    rw [← hY, ← ha, ← hb, ← hc, ← he]
  rw [hdse]
  simp only [absoluteZeroYear] at hY
  omega

end time

/-! ### Reading a date-time: the fields `time.Parse` accepts are in range -/

namespace time

theorem isDigit_range (c : Char) (h : isDigit c = true) :
    0 ≤ digitVal c ∧ digitVal c ≤ 9 := by
  simp only [isDigit, decide_eq_true_eq] at h
  obtain ⟨h1, h2⟩ := h
  have h1' : (48 : Nat) ≤ c.toNat := h1
  have h2' : c.toNat ≤ 57 := h2
  unfold digitVal
  omega

theorem getyear_range (s : List Char) (y : Int) (r : List Char)
    (h : getyear s = some (y, r)) : 0 ≤ y ∧ y ≤ 9999 := by
  unfold getyear at h
  split at h
  · rename_i c0 c1 c2 c3 rest
    split at h
    · rename_i hd
      simp only [Option.some.injEq, Prod.mk.injEq] at h
      obtain ⟨h0, h1, h2, h3⟩ := hd
      have := isDigit_range c0 h0
      have := isDigit_range c1 h1
      have := isDigit_range c2 h2
      have := isDigit_range c3 h3
      omega
    · simp at h
  · simp at h

theorem foldl_digits_bounds (ds : List Char) (hds : ∀ c ∈ ds, isDigit c = true) (acc : Int)
    (hacc : 0 ≤ acc) :
    acc * 10 ^ ds.length ≤ ds.foldl (fun a c => a * 10 + digitVal c) acc ∧
    ds.foldl (fun a c => a * 10 + digitVal c) acc < (acc + 1) * 10 ^ ds.length := by
  induction ds generalizing acc with
  | nil => simp
  | cons c t ih =>
    have hc := isDigit_range c (hds c (List.mem_cons_self _ _))
    have ht := ih (fun x hx => hds x (List.mem_cons_of_mem _ hx)) (acc * 10 + digitVal c)
      (by omega)
    have hP : (0 : Int) < 10 ^ t.length := by positivity
    simp only [List.foldl_cons, List.length_cons, pow_succ]
    constructor
    · nlinarith [ht.1, mul_nonneg hc.1 hP.le]
    · nlinarith [ht.2, mul_nonneg (by omega : (0:Int) ≤ 9 - digitVal c) hP.le]

theorem getfrac_range (s : List Char) (n : Int) (r : List Char) (h : getfrac s = (n, r)) :
    0 ≤ n ∧ n < 1000000000 := by
  unfold getfrac at h
  split at h
  · rename_i sep c1 rest
    split at h
    · rename_i hc
      simp only [Prod.mk.injEq] at h
      obtain ⟨hn, _⟩ := h
      obtain ⟨used, hused⟩ : ∃ used, used = (c1 :: rest.takeWhile isDigit).take 9 := ⟨_, rfl⟩
      rw [← hused] at hn
      have hdig : ∀ c ∈ used, isDigit c = true := by
        intro c hcm
        rw [hused] at hcm
        have hcm2 := List.mem_of_mem_take hcm
        rcases List.mem_cons.1 hcm2 with rfl | hcm3
        · exact hc.2
        · exact (List.mem_takeWhile_imp hcm3)
      have hlen : used.length ≤ 9 := by
        rw [hused]; exact List.length_take_le _ _
      have hb := foldl_digits_bounds used hdig 0 le_rfl
      simp only [zero_mul, zero_add, one_mul] at hb
      have hQ : (0 : Int) < 10 ^ (9 - used.length) := by positivity
      have hpow : (10 : Int) ^ used.length * 10 ^ (9 - used.length) = 1000000000 := by
        rw [← pow_add, Nat.add_sub_cancel' hlen]; norm_num
      subst hn
      unfold digitsVal
      constructor
      · exact mul_nonneg hb.1 hQ.le
      · calc List.foldl (fun acc c => acc * 10 + digitVal c) 0 used * 10 ^ (9 - used.length)
            < 10 ^ used.length * 10 ^ (9 - used.length) := by
              exact mul_lt_mul_of_pos_right hb.2 hQ
          _ = 1000000000 := hpow
    · simp only [Prod.mk.injEq] at h
      omega
  · simp only [Prod.mk.injEq] at h
    omega

/-- The fields `time.Parse` reads form a date-time of the calendar: a
four-digit year, a month, a day of that month, and a clock reading. -/
theorem parseFields_valid (value : String) (f : Fields) (h : parseFields value = .ok f) :
    f.Valid := by
  unfold Fields.Valid
  revert h
  unfold parseFields
  simp only []
  repeat' split
  all_goals
    intro h
    first
      | (simp at h; done)
      | skip
  simp only [Except.ok.injEq] at h
  subst h
  have hyr := getyear_range _ _ _ (by assumption)
  rename_i v11 _ _ _ _
  have hns := getfrac_range v11 (getfrac v11).1 (getfrac v11).2 rfl
  simp only []
  omega

end time

/-! ### `time.Date` in a location -/

namespace time

theorem offsetAt_UTC (sec : Int) : UTC.offsetAt sec = 0 := rfl

theorem regular_UTC : UTC.Regular := ⟨⟨by decide, by decide⟩, trivial⟩

theorem shows_UTC (wall : Int) : UTC.shows wall := ⟨wall, by simp [offsetAt_UTC]⟩

theorem lookupFrom_offset_bound (tx : List zoneTrans) (cur start x : Int)
    (hcur : -86400 ≤ cur ∧ cur ≤ 86400) (hreg : regularFrom start tx) :
    -86400 ≤ (lookupFrom cur start tx x).1 ∧ (lookupFrom cur start tx x).1 ≤ 86400 := by
  induction tx generalizing cur start with
  | nil => simpa [lookupFrom] using hcur
  | cons t rest ih =>
    obtain ⟨_, hoff, hrest⟩ := hreg
    unfold lookupFrom
    split_ifs
    · exact hcur
    · exact ih t.offset t.when hoff hrest

/-- The period found contains the instant looked up; it starts no earlier
than the table, and it is longer than 48 hours unless it is the last. -/
theorem lookupFrom_period (tx : List zoneTrans) (cur start x : Int)
    (hreg : regularFrom start tx) (hx : start ≤ x) (hxo : x < omega) :
    (lookupFrom cur start tx x).2.1 ≤ x ∧ x < (lookupFrom cur start tx x).2.2 ∧
    ((lookupFrom cur start tx x).2.1 = start ∨
      start + 172800 < (lookupFrom cur start tx x).2.1) ∧
    ((lookupFrom cur start tx x).2.2 = omega ∨
      (lookupFrom cur start tx x).2.1 + 172800 < (lookupFrom cur start tx x).2.2) := by
  induction tx generalizing cur start with
  | nil => simp [lookupFrom, hx, hxo]
  | cons t rest ih =>
    obtain ⟨hsp, _, hrest⟩ := hreg
    unfold lookupFrom
    split_ifs with h
    · exact ⟨hx, h, Or.inl rfl, Or.inr hsp⟩
    · obtain ⟨h1, h2, h3, h4⟩ := ih t.offset t.when hrest (by omega)
      refine ⟨h1, h2, Or.inr ?_, h4⟩
      omega

/-- Every instant of the period found is looked up to the same period. -/
theorem lookupFrom_same (tx : List zoneTrans) (cur start x u : Int)
    (hreg : regularFrom start tx) (hx : start ≤ x) (hxo : x < omega)
    (hu1 : (lookupFrom cur start tx x).2.1 ≤ u) (hu2 : u < (lookupFrom cur start tx x).2.2) :
    lookupFrom cur start tx u = lookupFrom cur start tx x := by
  induction tx generalizing cur start with
  | nil => simp [lookupFrom]
  | cons t rest ih =>
    obtain ⟨hsp, _, hrest⟩ := hreg
    by_cases h : x < t.when
    · simp only [lookupFrom, if_pos h] at hu1 hu2 ⊢
      rw [if_pos hu2]
    · simp only [lookupFrom, if_neg h] at hu1 hu2 ⊢
      obtain ⟨_, _, h3, _⟩ := lookupFrom_period rest t.offset t.when x hrest (by omega) hxo
      have hv : ¬ u < t.when := by omega
      rw [if_neg hv]
      exact ih t.offset t.when hrest (by omega) hu1 hu2

/-- Right after the period found, for 48 hours, one offset is in force. -/
theorem lookupFrom_next (tx : List zoneTrans) (cur start x : Int)
    (hreg : regularFrom start tx) (hx : start ≤ x) (hxo : x < omega) :
    ∃ o, ∀ v, (lookupFrom cur start tx x).2.2 ≤ v →
      v ≤ (lookupFrom cur start tx x).2.2 + 172800 → v < omega →
      (lookupFrom cur start tx v).1 = o := by
  induction tx generalizing cur start with
  | nil =>
    refine ⟨0, fun v hv _ hvo => ?_⟩
    simp only [lookupFrom] at hv
    omega
  | cons t rest ih =>
    obtain ⟨hsp, _, hrest⟩ := hreg
    by_cases h : x < t.when
    · refine ⟨t.offset, fun v hv1 hv2 _ => ?_⟩
      simp only [lookupFrom, if_pos h] at hv1 hv2
      have hv : ¬ v < t.when := by omega
      rw [lookupFrom, if_neg hv]
      cases rest with
      | nil => simp [lookupFrom]
      | cons t2 rest2 =>
        obtain ⟨hsp2, _, _⟩ := hrest
        have : v < t2.when := by omega
        simp [lookupFrom, this]
    · obtain ⟨o, ho⟩ := ih t.offset t.when hrest (by omega)
      refine ⟨o, fun v hv1 hv2 hvo => ?_⟩
      simp only [lookupFrom, if_neg h] at hv1 hv2
      obtain ⟨_, h2, _, _⟩ := lookupFrom_period rest t.offset t.when x hrest (by omega) hxo
      have hv : ¬ v < t.when := by omega
      rw [lookupFrom, if_neg hv]
      exact ho v hv1 hv2 hvo

/-- Right before the period found, for 48 hours, one offset is in force. -/
theorem lookupFrom_prev (tx : List zoneTrans) (cur start x : Int)
    (hreg : regularFrom start tx) (hx : start ≤ x) (hxo : x < omega) :
    ∃ o, ∀ v, start ≤ v → (lookupFrom cur start tx x).2.1 - 172800 ≤ v →
      v < (lookupFrom cur start tx x).2.1 →
      (lookupFrom cur start tx v).1 = o := by
  induction tx generalizing cur start with
  | nil =>
    refine ⟨0, fun v hv1 _ hv3 => ?_⟩
    simp only [lookupFrom] at hv3
    omega
  | cons t rest ih =>
    obtain ⟨hsp, _, hrest⟩ := hreg
    by_cases h : x < t.when
    · refine ⟨0, fun v hv1 _ hv3 => ?_⟩
      simp only [lookupFrom, if_pos h] at hv3
      omega
    · obtain ⟨_, _, h3, _⟩ := lookupFrom_period rest t.offset t.when x hrest (by omega) hxo
      rcases h3 with h3 | h3
      · refine ⟨cur, fun v _ _ hv3 => ?_⟩
        simp only [lookupFrom, if_neg h] at hv3
        have hv : v < t.when := by omega
        simp [lookupFrom, hv]
      · obtain ⟨o, ho⟩ := ih t.offset t.when hrest (by omega)
        refine ⟨o, fun v _ hv2 hv3 => ?_⟩
        simp only [lookupFrom, if_neg h] at hv2 hv3
        have hv : ¬ v < t.when := by omega
        rw [lookupFrom, if_neg hv]
        exact ho v (by omega) hv2 hv3

theorem offsetAt_bound (l : Location) (hreg : l.Regular) (x : Int) :
    -86400 ≤ l.offsetAt x ∧ l.offsetAt x ≤ 86400 :=
  lookupFrom_offset_bound l.tx l.offset0 alpha x hreg.1 hreg.2

/-- In a regular zone the instant `Date` picks shows the clock reading it was
given, whenever the zone shows that reading at all. -/
theorem Date_shows (y mo d h mi s ns : Int) (l : Location) (hreg : l.Regular)
    (hlo : -4611686018427387904 ≤ (dateAbs y mo d h mi s ns).1 - unixToAbsolute)
    (hhi : (dateAbs y mo d h mi s ns).1 - unixToAbsolute ≤ 4611686018427387904)
    (hsh : l.shows ((dateAbs y mo d h mi s ns).1 - unixToAbsolute)) :
    (Date y mo d h mi s ns l).sec + l.offsetAt (Date y mo d h mi s ns l).sec =
      (dateAbs y mo d h mi s ns).1 - unixToAbsolute ∧
    (Date y mo d h mi s ns l).nsec = (dateAbs y mo d h mi s ns).2 ∧
    (Date y mo d h mi s ns l).loc = l := by
  unfold Date
  generalize dateAbs y mo d h mi s ns = p at hlo hhi hsh ⊢
  obtain ⟨abs, nsec⟩ := p
  simp only [] at hlo hhi hsh ⊢
  obtain ⟨wall, hwall⟩ : ∃ wall, wall = abs - unixToAbsolute := ⟨_, rfl⟩
  rw [← hwall] at hlo hhi hsh ⊢
  refine ⟨?_, trivial, trivial⟩
  obtain ⟨u0, hu0⟩ := hsh
  have hal : alpha = -9223372036854775808 := by norm_num [alpha]
  have hom : omega = 9223372036854775807 := by norm_num [omega]
  have hx : alpha ≤ wall := by omega
  have hxo : wall < omega := by omega
  obtain ⟨hp1, hp2, hp3, hp4⟩ := lookupFrom_period l.tx l.offset0 alpha wall hreg.2 hx hxo
  have hsame := fun u => lookupFrom_same l.tx l.offset0 alpha wall u hreg.2 hx hxo
  obtain ⟨onx, hnext⟩ := lookupFrom_next l.tx l.offset0 alpha wall hreg.2 hx hxo
  obtain ⟨op, hprev⟩ := lookupFrom_prev l.tx l.offset0 alpha wall hreg.2 hx hxo
  have hb := offsetAt_bound l hreg
  have hb0 := hb u0
  have hbw := hb wall
  unfold Location.offsetAt Location.lookup at *
  generalize hq : lookupFrom l.offset0 alpha l.tx wall = q at *
  obtain ⟨o1, s1, e1⟩ := q
  simp only [] at *
  by_cases h0 : o1 = 0
  · simp only [h0, ne_eq, not_true_eq_false, if_false]
    rw [hq]; simp [h0]
  · simp only [ne_eq, h0, not_false_eq_true, if_true]
    by_cases h1 : wall - o1 < s1 ∨ wall - o1 ≥ e1
    · simp only [h1, if_true]
      rcases h1 with h1 | h1
      · -- the reading taken at the offset found falls before the period
        have e1' : (lookupFrom l.offset0 alpha l.tx (wall - o1)).1 = op :=
          hprev (wall - o1) (by omega) (by omega) h1
        rw [e1']
        have hu : u0 < s1 := by
          by_contra hcon
          have := hsame u0 (by omega) (by omega)
          rw [this] at hu0
          simp only [] at hu0
          omega
        have e2 : (lookupFrom l.offset0 alpha l.tx u0).1 = op :=
          hprev u0 (by omega) (by omega) hu
        rw [e2] at hu0
        have : wall - op = u0 := by omega
        rw [this, e2]; omega
      · -- the reading taken at the offset found falls after the period
        have e1' : (lookupFrom l.offset0 alpha l.tx (wall - o1)).1 = onx :=
          hnext (wall - o1) h1 (by omega) (by omega)
        rw [e1']
        have hu : e1 ≤ u0 := by
          by_contra hcon
          have := hsame u0 (by omega) (by omega)
          rw [this] at hu0
          simp only [] at hu0
          omega
        have e2 : (lookupFrom l.offset0 alpha l.tx u0).1 = onx :=
          hnext u0 hu (by omega) (by omega)
        rw [e2] at hu0
        have : wall - onx = u0 := by omega
        rw [this, e2]; omega
    · simp only [h1, if_false]
      have := hsame (wall - o1) (by omega) (by omega)
      rw [this]
      simp

/-- In a regular zone that shows the clock reading of the fields, the time
`Date` returns reads, in its location, exactly the fields `Date` was given,
and its location is the one given. -/
theorem Date_reads_back (f : Fields) (hv : f.Valid) (l : Location) (hreg : l.Regular)
    (hsh : l.shows f.unix) :
    (Date f.year f.month f.day f.hour f.min f.sec f.nsec l).Year = f.year ∧
    (Date f.year f.month f.day f.hour f.min f.sec f.nsec l).Month = f.month ∧
    (Date f.year f.month f.day f.hour f.min f.sec f.nsec l).Day = f.day ∧
    (Date f.year f.month f.day f.hour f.min f.sec f.nsec l).Hour = f.hour ∧
    (Date f.year f.month f.day f.hour f.min f.sec f.nsec l).Minute = f.min ∧
    (Date f.year f.month f.day f.hour f.min f.sec f.nsec l).Second = f.sec ∧
    (Date f.year f.month f.day f.hour f.min f.sec f.nsec l).Nanosecond = f.nsec ∧
    (Date f.year f.month f.day f.hour f.min f.sec f.nsec l).loc = l := by
  obtain ⟨hy, hmo, hd, hh, hmi, hs, hns⟩ := hv
  have hda := dateAbs_valid f.year f.month f.day f.hour f.min f.sec f.nsec hmo hh hmi hs hns
  obtain ⟨yd, hyd⟩ : ∃ yd, yd = daysBefore (f.month - 1) +
      (if isLeap f.year = true ∧ f.month ≥ 3 then 1 else 0) + (f.day - 1) := ⟨_, rfl⟩
  have hyd0 : 0 ≤ yd ∧ yd ≤ 365 := by
    have htab := daysBefore_table f.month hmo
    have hdmax := hd.2
    unfold daysIn at hdmax
    rw [hyd]
    split_ifs at hdmax ⊢ <;> omega
  have hdse := daysSinceEpoch_bounds f.year hy
  have huta : unixToAbsolute = 9223372028715321600 := by norm_num [unixToAbsolute]
  unfold Fields.unix at hsh
  have hda1 : (dateAbs f.year f.month f.day f.hour f.min f.sec f.nsec).1 =
      (daysSinceEpoch f.year + yd) * 86400 + (f.hour * 3600 + f.min * 60 + f.sec) := by
    rw [hda, hyd]; rfl
  obtain ⟨hsec, hnsec, hloc⟩ := Date_shows f.year f.month f.day f.hour f.min f.sec f.nsec l
    hreg (by rw [hda1, huta]; omega) (by rw [hda1, huta]; omega) hsh
  obtain ⟨t, ht⟩ : ∃ t, t = Date f.year f.month f.day f.hour f.min f.sec f.nsec l := ⟨_, rfl⟩
  rw [← ht] at hsec hnsec hloc ⊢
  rw [hda] at hnsec
  simp only [] at hnsec
  have habs : t.abs = (daysSinceEpoch f.year + yd) * secondsPerDay
      + (f.hour * 3600 + f.min * 60 + f.sec) := by
    unfold Time.abs
    rw [hloc]
    have : t.sec + l.offsetAt t.sec + unixToAbsolute =
        (daysSinceEpoch f.year + yd) * 86400 + (f.hour * 3600 + f.min * 60 + f.sec) := by
      rw [hsec, hda1]; omega
    rw [this]
    simp only [secondsPerDay]
    omega
  have hdate : absDate t.abs = (f.year, f.month, f.day) := by
    rw [habs, hyd]
    exact absDate_roundtrip f.year f.month f.day _ hmo hd (by omega)
  have hclock : absClock t.abs = (f.hour, f.min, f.sec) := by
    rw [habs]
    exact absClock_roundtrip _ f.hour f.min f.sec hh hmi hs
  simp only [Time.Year, Time.Month, Time.Day, Time.Hour, Time.Minute, Time.Second,
    Time.Nanosecond, hdate, hclock, hnsec, hloc, and_self]

/-- A date-time that parses is read back from the parsed time field by
field. -/
theorem Parse_fields (value : String) (f : Fields) (h : parseFields value = .ok f) :
    ∃ tUTC, Parse value = .ok tUTC ∧ tUTC.Year = f.year ∧ tUTC.Month = f.month ∧
      tUTC.Day = f.day ∧ tUTC.Hour = f.hour ∧ tUTC.Minute = f.min ∧ tUTC.Second = f.sec ∧
      tUTC.Nanosecond = f.nsec := by
  refine ⟨Date f.year f.month f.day f.hour f.min f.sec f.nsec UTC, ?_, ?_⟩
  · simp only [Parse, h]
  · obtain ⟨h1, h2, h3, h4, h5, h6, h7, _⟩ :=
      Date_reads_back f (parseFields_valid value f h) UTC regular_UTC (shows_UTC _)
    exact ⟨h1, h2, h3, h4, h5, h6, h7⟩

end time

/-! ### The classifier -/

section ClassifyResults

open voiceclassifier common

/-- C1. For every successful result of `Classify`, whatever the transcript,
timezone, call time, library behaviour and endpoint answers:
`InterestedTime` is non-nil only if the intent is `voice_interested`,
`CallBackTime` is non-nil only if the intent is `voice_wants_call_back`, the
two are never both non-nil, and for every other intent both are nil. -/
theorem Classify_times_follow_intent (lib : Lib) (senv : svc.Env) (params : ClassifyParams)
    (r : ClassifyResponse) (h : (Classify lib senv params).1 = .ok r) :
    (r.InterestedTime ≠ none → r.Intent = IntentVoiceInterested) ∧
    (r.CallBackTime ≠ none → r.Intent = IntentVoiceWantsCallBack) ∧
    ¬ (r.InterestedTime ≠ none ∧ r.CallBackTime ≠ none) ∧
    (r.Intent ≠ IntentVoiceInterested → r.Intent ≠ IntentVoiceWantsCallBack →
      r.InterestedTime = none ∧ r.CallBackTime = none) := by
  revert h
  unfold Classify
  simp only []
  repeat' split
  all_goals
    intro h
    first
      | (simp at h; done)
      | (simp at h; subst h; simp_all)

set_option maxRecDepth 100000 in
/-- Witness for C1: scenario B succeeds, and its result has the call-back time
only. -/
theorem Classify_times_follow_intent_witness :
    (Classify sample.lib sample.envB sample.paramsB).1 = .ok sample.resultB ∧
    ((sample.resultB.InterestedTime ≠ none → sample.resultB.Intent = IntentVoiceInterested) ∧
     (sample.resultB.CallBackTime ≠ none →
        sample.resultB.Intent = IntentVoiceWantsCallBack) ∧
     ¬ (sample.resultB.InterestedTime ≠ none ∧ sample.resultB.CallBackTime ≠ none) ∧
     (sample.resultB.Intent ≠ IntentVoiceInterested →
        sample.resultB.Intent ≠ IntentVoiceWantsCallBack →
        sample.resultB.InterestedTime = none ∧ sample.resultB.CallBackTime = none)) :=
  ⟨by decide,
   Classify_times_follow_intent sample.lib sample.envB sample.paramsB sample.resultB
     (by decide)⟩

set_option maxRecDepth 100000 in
/-- C2, counterexample. A stage-1 answer that is the empty JSON object (no
`intent` field), or an object whose `intent` is a number, does not make
`Classify` fail: it returns a successful result with the default intent
`voice_unknown`. -/
theorem Classify_intent_missing_counterexample :
    (∃ obj, sample.lib.jsonUnmarshal "\x7b\x7d" = .ok obj ∧ obj "intent" = none) ∧
    (Classify sample.lib (sample.envSaying "\x7b\x7d") sample.paramsB).1 =
      .ok ⟨IntentVoiceUnknown, none, none⟩ ∧
    (∃ obj, sample.lib.jsonUnmarshal "\x7b\"intent\": 7\x7d" = .ok obj ∧
      obj "intent" = some (.number "7")) ∧
    (Classify sample.lib (sample.envSaying "\x7b\"intent\": 7\x7d") sample.paramsB).1 =
      .ok ⟨IntentVoiceUnknown, none, none⟩ :=
  ⟨⟨_, rfl, rfl⟩, by decide, ⟨_, rfl, rfl⟩, by decide⟩

/-- C2, amended. When the stage-1 answer has a first choice whose content
decodes into a JSON object in which `intent` is absent or not a string,
`Classify` succeeds with the default intent `voice_unknown`, both time fields
nil, having sent the stage-1 request only; when the content does not decode,
`Classify` fails with the decoding error. -/
theorem Classify_intent_missing (lib : Lib) (senv : svc.Env) (params : ClassifyParams)
    (resp : openai.ChatCompletionResponse) (choice1 : openai.ChatCompletionChoice)
    (rest : List openai.ChatCompletionChoice)
    (h1 : senv.OpenAIClient [] (chatRequest (stage1Messages params)) = .ok resp)
    (h2 : resp.Choices = choice1 :: rest) :
    (∀ result1, lib.jsonUnmarshal choice1.Message.Content = .ok result1 →
      (∀ s, result1 "intent" ≠ some (.string s)) →
      Classify lib senv params =
        (.ok ⟨IntentVoiceUnknown, none, none⟩, [chatRequest (stage1Messages params)])) ∧
    (∀ err, lib.jsonUnmarshal choice1.Message.Content = .error err →
      Classify lib senv params =
        (.error (errors.Wrap err "fail to parse response"),
          [chatRequest (stage1Messages params)])) := by
  constructor
  · intro result1 h3 h4
    have hret : (match result1 "intent" with
        | some (json.Value.string intent) =>
          ({ Intent := intent, InterestedTime := none, CallBackTime := none } : ClassifyResponse)
        | _ => { Intent := IntentVoiceUnknown, InterestedTime := none, CallBackTime := none })
        = ⟨IntentVoiceUnknown, none, none⟩ := by
      split
      · rename_i intent hi; exact absurd hi (h4 intent)
      · rfl
    unfold Classify
    simp only [h1, h2, h3, hret]
    simp [IntentVoiceUnknown, IntentVoiceInterested, IntentVoiceWantsCallBack]
  · intro err h3
    unfold Classify
    simp only [h1, h2, h3]

set_option maxRecDepth 100000 in
/-- Witness for C2 (amended): the empty JSON object as stage-1 answer. -/
theorem Classify_intent_missing_witness :
    Classify sample.lib (sample.envSaying "\x7b\x7d") sample.paramsB =
      (.ok ⟨IntentVoiceUnknown, none, none⟩, [chatRequest (stage1Messages sample.paramsB)]) :=
  (Classify_intent_missing sample.lib (sample.envSaying "\x7b\x7d") sample.paramsB
    ⟨[⟨⟨openai.ChatMessageRoleAssistant, "\x7b\x7d"⟩⟩]⟩
    ⟨⟨openai.ChatMessageRoleAssistant, "\x7b\x7d"⟩⟩ [] rfl rfl).1
    (fun _ => none) rfl (fun _ h => by simp at h)

end ClassifyResults

section ClassifyTimes

open voiceclassifier common

set_option maxRecDepth 100000 in
/-- C3, counterexample. The timezone America/New_York loads, the stage-1
intent is `voice_interested`, and the stage-2 answer carries
"2024-03-10T02:30:00", which parses with the layout, its hour being 2.  The
time `Classify` returns, read in America/New_York, is 2024-03-10 01:30:00:
its hour is 1, not 2.  The zone table is regular; the clock of New York
never shows the reading 2024-03-10 02:30:00, and `time.Date` moves it. -/
theorem Classify_skipped_reading_counterexample :
    sample.lib.LoadLocation sample.paramsNY.Timezone = .ok sample.newYork ∧
    time.parseFields "2024-03-10T02:30:00" = .ok ⟨2024, 3, 10, 2, 30, 0, 0⟩ ∧
    (Classify sample.lib sample.envGap sample.paramsNY).1 =
      .ok ⟨IntentVoiceInterested, some sample.gapTime, none⟩ ∧
    sample.gapTime.loc = sample.newYork ∧
    sample.gapTime.Year = 2024 ∧ sample.gapTime.Month = 3 ∧ sample.gapTime.Day = 10 ∧
    sample.gapTime.Hour = 1 ∧ sample.gapTime.Minute = 30 ∧ sample.gapTime.Second = 0 ∧
    sample.newYork.Regular ∧
    ¬ sample.newYork.shows (time.Fields.unix ⟨2024, 3, 10, 2, 30, 0, 0⟩) := by
  refine ⟨rfl, rfl, by decide, rfl, by decide, by decide, by decide, by decide, by decide,
    by decide, ?_, ?_⟩
  · refine ⟨⟨by decide, by decide⟩, ?_, ⟨by decide, by decide⟩, ?_, ⟨by decide, by decide⟩,
      trivial⟩
    · norm_num [time.alpha]
    · norm_num
  · rintro ⟨u, hu⟩
    have hw : time.Fields.unix ⟨2024, 3, 10, 2, 30, 0, 0⟩ = 1710037800 := by decide
    rw [hw] at hu
    simp only [time.Location.offsetAt, time.Location.lookup, sample.newYork,
      time.lookupFrom] at hu
    split_ifs at hu <;> simp only [] at hu <;> omega

theorem parseFields_ne_empty (f : time.Fields) : time.parseFields "" ≠ .ok f := by
  intro h
  have h2 : time.parseFields "" = .error "parsing time \"\" as \"2006-01-02T15:04:05\"" := rfl
  rw [h2] at h
  cases h

theorem parseFields_ne_null (f : time.Fields) : time.parseFields "null" ≠ .ok f := by
  intro h
  have h2 : time.parseFields "null" =
      .error "parsing time \"null\" as \"2006-01-02T15:04:05\"" := rfl
  rw [h2] at h
  cases h

/-- C3, amended. Let the stage-1 answer carry the intent `voice_interested`
or `voice_wants_call_back`, let the call's timezone load as `location`, let
the stage-2 answer carry under `agreedDatetime` a string that parses with the
layout 2006-01-02T15:04:05 into the fields `f`, and let that clock reading
exist in the zone: some instant shows it on the clock of `location`, whose
zone table is regular (transitions more than 48 hours apart, offsets within
24 hours of UTC).  Then `Classify` succeeds with that intent and one time `t`,
in `InterestedTime` for `voice_interested` and in `CallBackTime` otherwise,
the other field nil; read in its location `t` has exactly the year, month,
day, hour, minute and second (and nanosecond) of the string, and its location
is the call's timezone. -/
theorem Classify_keeps_clock_fields (lib : Lib) (senv : svc.Env) (params : ClassifyParams)
    (resp1 resp2 : openai.ChatCompletionResponse)
    (choice1 choice2 : openai.ChatCompletionChoice)
    (rest1 rest2 : List openai.ChatCompletionChoice) (result1 result2 : json.Object)
    (intent : Intent) (location : time.Location) (agreedDatetime : String)
    (f : time.Fields)
    (h1 : senv.OpenAIClient [] (chatRequest (stage1Messages params)) = .ok resp1)
    (h2 : resp1.Choices = choice1 :: rest1)
    (h3 : lib.jsonUnmarshal choice1.Message.Content = .ok result1)
    (h4 : result1 "intent" = some (.string intent))
    (h5 : intent = IntentVoiceInterested ∨ intent = IntentVoiceWantsCallBack)
    (h6 : lib.LoadLocation params.Timezone = .ok location)
    (h7 : senv.OpenAIClient [chatRequest (stage1Messages params)]
      (chatRequest (stage2Messages params choice1.Message.Content
        (stage2Prompt intent params.CalledAt location))) = .ok resp2)
    (h8 : resp2.Choices = choice2 :: rest2)
    (h9 : lib.jsonUnmarshal choice2.Message.Content = .ok result2)
    (h10 : result2 "agreedDatetime" = some (.string agreedDatetime))
    (h11 : time.parseFields agreedDatetime = .ok f)
    (h12 : location.Regular) (h13 : location.shows f.unix) :
    ∃ t : time.Time,
      (Classify lib senv params).1 =
        .ok (if intent = IntentVoiceInterested then ⟨intent, some t, none⟩
          else ⟨intent, none, some t⟩) ∧
      t.loc = location ∧
      t.Year = f.year ∧ t.Month = f.month ∧ t.Day = f.day ∧
      t.Hour = f.hour ∧ t.Minute = f.min ∧ t.Second = f.sec ∧ t.Nanosecond = f.nsec := by
  obtain ⟨tUTC, hparse, hY, hMo, hD, hH, hMi, hS, hN⟩ :=
    time.Parse_fields agreedDatetime f h11
  obtain ⟨r1, r2, r3, r4, r5, r6, r7, r8⟩ :=
    time.Date_reads_back f (time.parseFields_valid agreedDatetime f h11) location h12 h13
  refine ⟨time.Date f.year f.month f.day f.hour f.min f.sec f.nsec location, ?_,
    r8, r1, r2, r3, r4, r5, r6, r7⟩
  have hne1 : agreedDatetime ≠ "" := by
    rintro rfl; exact parseFields_ne_empty f h11
  have hne2 : agreedDatetime ≠ "null" := by
    rintro rfl; exact parseFields_ne_null f h11
  unfold Classify
  simp only [h1, h2, h3, h4, h5, h6, h7, h8, h9, h10, hparse, hY, hMo, hD, hH, hMi, hS, hN,
    hne1, hne2, ne_eq, not_false_eq_true, and_self, if_true]
  rcases h5 with rfl | rfl
  · simp
  · simp [IntentVoiceInterested, IntentVoiceWantsCallBack]

set_option maxRecDepth 100000 in
/-- Witness for C3 (amended): scenario B of the specification.
"2024-01-11T15:00:00" with Asia/Singapore yields 2024-01-11 15:00:00 in
Asia/Singapore. -/
theorem Classify_keeps_clock_fields_witness :
    ∃ t : time.Time,
      (Classify sample.lib sample.envB sample.paramsB).1 =
        .ok (if IntentVoiceWantsCallBack = IntentVoiceInterested then
            ⟨IntentVoiceWantsCallBack, some t, none⟩
          else ⟨IntentVoiceWantsCallBack, none, some t⟩) ∧
      t.loc = sample.singapore ∧
      t.Year = 2024 ∧ t.Month = 1 ∧ t.Day = 11 ∧
      t.Hour = 15 ∧ t.Minute = 0 ∧ t.Second = 0 ∧ t.Nanosecond = 0 :=
  Classify_keeps_clock_fields sample.lib sample.envB sample.paramsB
    ⟨[⟨⟨openai.ChatMessageRoleAssistant, "\x7b\"intent\": \"voice_wants_call_back\"\x7d"⟩⟩]⟩
    ⟨[⟨⟨openai.ChatMessageRoleAssistant,
      "\x7b\"agreedDatetime\": \"2024-01-11T15:00:00\"\x7d"⟩⟩]⟩
    ⟨⟨openai.ChatMessageRoleAssistant, "\x7b\"intent\": \"voice_wants_call_back\"\x7d"⟩⟩
    ⟨⟨openai.ChatMessageRoleAssistant, "\x7b\"agreedDatetime\": \"2024-01-11T15:00:00\"\x7d"⟩⟩
    [] []
    (fun k => if k = "intent" then some (.string "voice_wants_call_back") else none)
    (fun k => if k = "agreedDatetime" then some (.string "2024-01-11T15:00:00") else none)
    IntentVoiceWantsCallBack sample.singapore "2024-01-11T15:00:00"
    ⟨2024, 1, 11, 15, 0, 0, 0⟩
    rfl rfl rfl rfl (Or.inr rfl) rfl rfl rfl rfl rfl rfl
    ⟨⟨by decide, by decide⟩, trivial⟩ ⟨1704956400, by decide⟩

end ClassifyTimes

section ClassifyFailures

open voiceclassifier common

set_option maxRecDepth 100000 in
/-- C9, counterexample. The timezone name "Mars/Colony" cannot be loaded, the
stage-1 intent is `voice_not_interested`, and `Classify` succeeds: the
timezone is loaded only for the two intents that carry a time. -/
theorem Classify_unknown_timezone_counterexample :
    (∃ err, sample.lib.LoadLocation sample.paramsMars.Timezone = .error err) ∧
    (Classify sample.lib (sample.envSaying "\x7b\"intent\": \"voice_not_interested\"\x7d")
      sample.paramsMars).1 = .ok ⟨IntentVoiceNotInterested, none, none⟩ :=
  ⟨⟨_, rfl⟩, by decide⟩

/-- C9, amended. For every call whose timezone name cannot be loaded,
`Classify` sends the stage-1 request and no other, whatever happens.  When
the stage-1 answer carries the intent `voice_interested` or
`voice_wants_call_back`, `Classify` fails with the loading error.  When it
carries any other intent, `Classify` succeeds with that intent and no time;
and when it carries no intent string at all, `Classify` succeeds with
`voice_unknown` and no time: the timezone is then not loaded at all. -/
theorem Classify_unknown_timezone (lib : Lib) (senv : svc.Env) (params : ClassifyParams)
    (err : String) (hload : lib.LoadLocation params.Timezone = .error err) :
    (Classify lib senv params).2 = [chatRequest (stage1Messages params)] ∧
    (∀ resp choice1 rest result1 intent,
      senv.OpenAIClient [] (chatRequest (stage1Messages params)) = .ok resp →
      resp.Choices = choice1 :: rest →
      lib.jsonUnmarshal choice1.Message.Content = .ok result1 →
      result1 "intent" = some (.string intent) →
      intent = IntentVoiceInterested ∨ intent = IntentVoiceWantsCallBack →
      (Classify lib senv params).1 =
        .error (errors.Wrap err "error loading location timezone")) ∧
    (∀ resp choice1 rest result1 intent,
      senv.OpenAIClient [] (chatRequest (stage1Messages params)) = .ok resp →
      resp.Choices = choice1 :: rest →
      lib.jsonUnmarshal choice1.Message.Content = .ok result1 →
      result1 "intent" = some (.string intent) →
      intent ≠ IntentVoiceInterested → intent ≠ IntentVoiceWantsCallBack →
      (Classify lib senv params).1 = .ok ⟨intent, none, none⟩) ∧
    (∀ resp choice1 rest result1,
      senv.OpenAIClient [] (chatRequest (stage1Messages params)) = .ok resp →
      resp.Choices = choice1 :: rest →
      lib.jsonUnmarshal choice1.Message.Content = .ok result1 →
      (∀ intent, result1 "intent" ≠ some (.string intent)) →
      (Classify lib senv params).1 = .ok ⟨IntentVoiceUnknown, none, none⟩) := by
  refine ⟨?_, ?_, ?_, ?_⟩
  · unfold Classify
    simp only [hload]
    repeat' split
    all_goals rfl
  · intro resp choice1 rest result1 intent h1 h2 h3 h4 h5
    unfold Classify
    simp only [h1, h2, h3, h4, hload]
    rw [if_pos h5]
  · intro resp choice1 rest result1 intent h1 h2 h3 h4 h5 h6
    unfold Classify
    simp only [h1, h2, h3, h4]
    rw [if_neg (by rintro (h | h); exacts [h5 h, h6 h])]
  · intro resp choice1 rest result1 h1 h2 h3 h4
    unfold Classify
    simp only [h1, h2, h3]
    generalize result1 "intent" = r at h4 ⊢
    rcases r with _ | v
    · rw [if_neg (by decide)]
    · cases v <;> first | exact absurd rfl (h4 _) | rw [if_neg (by decide)]

set_option maxRecDepth 100000 in
/-- Witness for C9 (amended): "Mars/Colony".  On an interested call
`Classify` fails with the loading error after the stage-1 request alone; on
a call that is not interested it succeeds with that intent; on a stage-1
answer whose `intent` is a number it succeeds with `voice_unknown`. -/
theorem Classify_unknown_timezone_witness :
    (Classify sample.lib (sample.envSaying "\x7b\"intent\": \"voice_interested\"\x7d")
      sample.paramsMars).2 = [chatRequest (stage1Messages sample.paramsMars)] ∧
    (Classify sample.lib (sample.envSaying "\x7b\"intent\": \"voice_interested\"\x7d")
      sample.paramsMars).1 =
      .error (errors.Wrap "unknown time zone Mars/Colony" "error loading location timezone") ∧
    (Classify sample.lib (sample.envSaying "\x7b\"intent\": \"voice_not_interested\"\x7d")
      sample.paramsMars).1 = .ok ⟨"voice_not_interested", none, none⟩ ∧
    (Classify sample.lib (sample.envSaying "\x7b\"intent\": 7\x7d")
      sample.paramsMars).1 = .ok ⟨IntentVoiceUnknown, none, none⟩ :=
  have h := Classify_unknown_timezone sample.lib
    (sample.envSaying "\x7b\"intent\": \"voice_interested\"\x7d") sample.paramsMars
    "unknown time zone Mars/Colony" rfl
  have hn := Classify_unknown_timezone sample.lib
    (sample.envSaying "\x7b\"intent\": \"voice_not_interested\"\x7d") sample.paramsMars
    "unknown time zone Mars/Colony" rfl
  have h7 := Classify_unknown_timezone sample.lib
    (sample.envSaying "\x7b\"intent\": 7\x7d") sample.paramsMars
    "unknown time zone Mars/Colony" rfl
  ⟨h.1, h.2.1 ⟨[⟨⟨openai.ChatMessageRoleAssistant, "\x7b\"intent\": \"voice_interested\"\x7d"⟩⟩]⟩
    ⟨⟨openai.ChatMessageRoleAssistant, "\x7b\"intent\": \"voice_interested\"\x7d"⟩⟩ []
    (fun k => if k = "intent" then some (.string "voice_interested") else none)
    "voice_interested" rfl rfl rfl rfl (Or.inl rfl),
   hn.2.2.1
    ⟨[⟨⟨openai.ChatMessageRoleAssistant, "\x7b\"intent\": \"voice_not_interested\"\x7d"⟩⟩]⟩
    ⟨⟨openai.ChatMessageRoleAssistant, "\x7b\"intent\": \"voice_not_interested\"\x7d"⟩⟩ []
    (fun k => if k = "intent" then some (.string "voice_not_interested") else none)
    "voice_not_interested" rfl rfl rfl rfl (by decide) (by decide),
   h7.2.2.2 ⟨[⟨⟨openai.ChatMessageRoleAssistant, "\x7b\"intent\": 7\x7d"⟩⟩]⟩
    ⟨⟨openai.ChatMessageRoleAssistant, "\x7b\"intent\": 7\x7d"⟩⟩ []
    (fun k => if k = "intent" then some (.number "7") else none)
    rfl rfl rfl (fun _ hi => by simp at hi)⟩

set_option maxRecDepth 100000 in
/-- C10, the failing input. The endpoint answers the stage-1 request without
error and with an empty list of choices: `Classify` reads index 0 of the
empty list and panics; it returns neither a result nor an error. -/
theorem Classify_no_choice_panics :
    (Classify sample.lib ⟨sample.clientNoChoice, .DB⟩ sample.paramsB).1 =
      .panic indexOutOfRange := by
  decide

end ClassifyFailures

section ClassifyNoDate

open voiceclassifier common

/-- C11. Let the stage-1 answer carry the intent `voice_interested` or
`voice_wants_call_back`, let the call's timezone load, and let the stage-2
answer carry under `agreedDatetime` the string "null" or the empty string.
Then `Classify` succeeds with that intent and with both `InterestedTime` and
`CallBackTime` nil. -/
theorem Classify_no_datetime (lib : Lib) (senv : svc.Env) (params : ClassifyParams)
    (resp1 resp2 : openai.ChatCompletionResponse)
    (choice1 choice2 : openai.ChatCompletionChoice)
    (rest1 rest2 : List openai.ChatCompletionChoice) (result1 result2 : json.Object)
    (intent : Intent) (location : time.Location) (agreedDatetime : String)
    (h1 : senv.OpenAIClient [] (chatRequest (stage1Messages params)) = .ok resp1)
    (h2 : resp1.Choices = choice1 :: rest1)
    (h3 : lib.jsonUnmarshal choice1.Message.Content = .ok result1)
    (h4 : result1 "intent" = some (.string intent))
    (h5 : intent = IntentVoiceInterested ∨ intent = IntentVoiceWantsCallBack)
    (h6 : lib.LoadLocation params.Timezone = .ok location)
    (h7 : senv.OpenAIClient [chatRequest (stage1Messages params)]
      (chatRequest (stage2Messages params choice1.Message.Content
        (stage2Prompt intent params.CalledAt location))) = .ok resp2)
    (h8 : resp2.Choices = choice2 :: rest2)
    (h9 : lib.jsonUnmarshal choice2.Message.Content = .ok result2)
    (h10 : result2 "agreedDatetime" = some (.string agreedDatetime))
    (h11 : agreedDatetime = "null" ∨ agreedDatetime = "") :
    (Classify lib senv params).1 = .ok ⟨intent, none, none⟩ := by
  have hcond : ¬ (agreedDatetime ≠ "" ∧ agreedDatetime ≠ "null") := by
    rintro ⟨hne1, hne2⟩
    rcases h11 with h | h
    · exact hne2 h
    · exact hne1 h
  unfold Classify
  simp only [h1, h2, h3, h4, h5, h6, h7, h8, h9, h10, if_true, if_neg hcond]

set_option maxRecDepth 100000 in
/-- Witness for C11: an interested call in New York for which the stage-2
answer is "null". -/
theorem Classify_no_datetime_witness :
    (Classify sample.libNoDate sample.envNoDate sample.paramsNY).1 =
      .ok ⟨IntentVoiceInterested, none, none⟩ :=
  Classify_no_datetime sample.libNoDate sample.envNoDate sample.paramsNY
    ⟨[⟨⟨openai.ChatMessageRoleAssistant, "\x7b\"intent\": \"voice_interested\"\x7d"⟩⟩]⟩
    ⟨[⟨⟨openai.ChatMessageRoleAssistant, "\x7b\"agreedDatetime\": \"null\"\x7d"⟩⟩]⟩
    ⟨⟨openai.ChatMessageRoleAssistant, "\x7b\"intent\": \"voice_interested\"\x7d"⟩⟩
    ⟨⟨openai.ChatMessageRoleAssistant, "\x7b\"agreedDatetime\": \"null\"\x7d"⟩⟩
    [] []
    (fun k => if k = "intent" then some (.string "voice_interested") else none)
    (fun k => if k = "agreedDatetime" then some (.string "null") else none)
    IntentVoiceInterested sample.newYork "null"
    rfl rfl rfl rfl (Or.inl rfl) rfl rfl rfl rfl rfl (Or.inl rfl)

end ClassifyNoDate

/-! ### The thread processor: what each step adds to the trace and the tables -/

section Pipeline

open main voiceclassifier common

theorem classifyEvents_append (a b : List Event) :
    classifyEvents (a ++ b) = classifyEvents a ++ classifyEvents b := by
  simp [classifyEvents]

theorem insertEvents_append (a b : List Event) :
    insertEvents (a ++ b) = insertEvents a ++ insertEvents b := by
  simp [insertEvents]

theorem updateEvents_append (a b : List Event) :
    updateEvents (a ++ b) = updateEvents a ++ updateEvents b := by
  simp [updateEvents]

theorem listCallsEvents_append (a b : List Event) :
    listCallsEvents (a ++ b) = listCallsEvents a ++ listCallsEvents b := by
  simp [listCallsEvents]

/-- A write statement adds its own event to the trace and nothing to the
log. -/
theorem exec_trace (orc : Oracle) (w : World) (h : db.DBTX) (e : Event) (wr : Write) :
    (w.exec orc h e wr).2.trace = w.trace ++ [e] ∧ (w.exec orc h e wr).2.logs = w.logs := by
  unfold World.exec
  cases orc.fail w e <;> cases h <;> simp [World.emit]
  cases w.tx <;> simp

/-- A write statement on the shared connection: it applies at once, or fails
and changes nothing; the open transaction is not touched. -/
theorem exec_DB (orc : Oracle) (w : World) (e : Event) (wr : Write) :
    ((w.exec orc .DB e wr).1 = none ∧ (w.exec orc .DB e wr).2.store = wr.apply w.store ∨
      (w.exec orc .DB e wr).1 ≠ none ∧ (w.exec orc .DB e wr).2.store = w.store) ∧
    (w.exec orc .DB e wr).2.tx = w.tx := by
  unfold World.exec
  cases orc.fail w e <;> simp [World.emit]

/-- A read statement adds its own event to the trace and changes nothing
else. -/
theorem query_world {α : Type} (orc : Oracle) (w : World) (h : db.DBTX) (e : Event)
    (rows : Store → List α) : (w.query orc h e rows).2 = w.emit e := by
  unfold World.query
  cases orc.fail w e <;> cases h <;> cases w.tx <;> rfl

theorem classifyVoiceCall_error (orc : Oracle) (senv : svc.Env)
    (classifier : ClassifierInterface) (q : classifications.generated.Queries) (w : World)
    (tid : String) (c : classifications.generated.VoiceCall) (err : String)
    (hc : classifier w senv (paramsFor c) = .error err) :
    classifyVoiceCall orc senv classifier q w tid c =
      (.error err, w.emit (.Classify (paramsFor c))) := by
  unfold classifyVoiceCall
  simp only [hc]

theorem classifyVoiceCall_panic (orc : Oracle) (senv : svc.Env)
    (classifier : ClassifierInterface) (q : classifications.generated.Queries) (w : World)
    (tid : String) (c : classifications.generated.VoiceCall) (msg : String)
    (hc : classifier w senv (paramsFor c) = .panic msg) :
    classifyVoiceCall orc senv classifier q w tid c =
      (.panic msg, w.emit (.Classify (paramsFor c))) := by
  unfold classifyVoiceCall
  simp only [hc]

theorem classifyVoiceCall_ok (orc : Oracle) (senv : svc.Env)
    (classifier : ClassifierInterface) (q : classifications.generated.Queries) (w : World)
    (tid : String) (c : classifications.generated.VoiceCall) (result : ClassifyResponse)
    (hc : classifier w senv (paramsFor c) = .ok result) :
    classifyVoiceCall orc senv classifier q w tid c =
      match classifications.generated.InsertClassification orc
          (w.emit (.Classify (paramsFor c))) q
          (insertParamsFor (orc.uuid (w.emit (.Classify (paramsFor c)))) tid result) with
      | (some err, w2) => (.error err, w2)
      | (none, w2) =>
        (.ok (), w2.Printf ("Successfully classified voice call " ++ c.ID ++
          " with intent " ++ result.Intent)) := by
  unfold classifyVoiceCall
  simp only [hc]

/-- What one `classifyVoiceCall` adds to the trace: the classifier invocation
and at most one insert, on the handle of the queries and for the given
thread; on success exactly one insert. -/
theorem classifyVoiceCall_trace (orc : Oracle) (senv : svc.Env)
    (classifier : ClassifierInterface) (q : classifications.generated.Queries) (w : World)
    (tid : String) (c : classifications.generated.VoiceCall) :
    ∃ ins : List classifications.generated.InsertClassificationParams,
      (classifyVoiceCall orc senv classifier q w tid c).2.trace =
        w.trace ++ .Classify (paramsFor c) :: ins.map (Event.InsertClassification q.db) ∧
      (∀ a ∈ ins, a.CampaignThreadID = tid) ∧ ins.length ≤ 1 ∧
      ((classifyVoiceCall orc senv classifier q w tid c).1 = .ok () → ins.length = 1) := by
  cases hc : classifier w senv (paramsFor c) with
  | panic msg =>
    rw [classifyVoiceCall_panic _ _ _ _ _ _ _ _ hc]
    exact ⟨[], by simp [World.emit]⟩
  | error err =>
    rw [classifyVoiceCall_error _ _ _ _ _ _ _ _ hc]
    exact ⟨[], by simp [World.emit]⟩
  | ok result =>
    rw [classifyVoiceCall_ok _ _ _ _ _ _ _ _ hc]
    refine ⟨[insertParamsFor (orc.uuid (w.emit (.Classify (paramsFor c)))) tid result],
      ?_, by simp [insertParamsFor], by simp, by simp⟩
    unfold classifications.generated.InsertClassification
    generalize Write.insertClassification _ = wr
    have ht := (exec_trace orc (w.emit (.Classify (paramsFor c))) q.db
      (.InsertClassification q.db
        (insertParamsFor (orc.uuid (w.emit (.Classify (paramsFor c)))) tid result)) wr).1
    revert ht
    cases (w.emit (.Classify (paramsFor c))).exec orc q.db
      (.InsertClassification q.db
        (insertParamsFor (orc.uuid (w.emit (.Classify (paramsFor c)))) tid result)) wr with
    | mk res w2 =>
      intro ht
      cases res <;> simp at ht <;> simp [ht, World.emit, World.Printf]

/-- What one `classifyVoiceCall` on the shared connection does to the tables:
on success one row of the given thread is added after the existing ones, on
failure nothing changes; threads, calls and the open transaction are never
touched. -/
theorem classifyVoiceCall_store (orc : Oracle) (senv : svc.Env)
    (classifier : ClassifierInterface) (q : classifications.generated.Queries) (w : World)
    (tid : String) (c : classifications.generated.VoiceCall) (hq : q.db = .DB) :
    ∃ rows : List classifications.generated.Classification,
      (classifyVoiceCall orc senv classifier q w tid c).2.store =
        { w.store with classifications := w.store.classifications ++ rows } ∧
      (∀ r ∈ rows, r.CampaignThreadID = tid) ∧
      ((classifyVoiceCall orc senv classifier q w tid c).1 = .ok () → rows.length = 1) ∧
      ((classifyVoiceCall orc senv classifier q w tid c).1 ≠ .ok () → rows = []) ∧
      (classifyVoiceCall orc senv classifier q w tid c).2.tx = w.tx := by
  cases hc : classifier w senv (paramsFor c) with
  | panic msg =>
    rw [classifyVoiceCall_panic _ _ _ _ _ _ _ _ hc]
    exact ⟨[], by simp [World.emit]⟩
  | error err =>
    rw [classifyVoiceCall_error _ _ _ _ _ _ _ _ hc]
    exact ⟨[], by simp [World.emit]⟩
  | ok result =>
    rw [classifyVoiceCall_ok _ _ _ _ _ _ _ _ hc]
    unfold classifications.generated.InsertClassification World.exec
    rw [hq]
    cases hf : orc.fail (w.emit (.Classify (paramsFor c))) (.InsertClassification .DB
        (insertParamsFor (orc.uuid (w.emit (.Classify (paramsFor c)))) tid result)) with
    | some err => exact ⟨[], by simp [World.emit]⟩
    | none =>
      refine ⟨[classifications.generated.rowFor (orc.now (w.emit (.Classify (paramsFor c))))
        (insertParamsFor (orc.uuid (w.emit (.Classify (paramsFor c)))) tid result)],
        ?_, ?_, by simp, by simp, by simp [World.emit, World.Printf]⟩
      · simp only [World.emit, World.Printf, Write.apply]
      · simp [insertParamsFor, classifications.generated.rowFor]

theorem classifyEvents_step (p : ClassifyParams) (h : db.DBTX)
    (ins : List classifications.generated.InsertClassificationParams) :
    classifyEvents (.Classify p :: ins.map (Event.InsertClassification h)) = [p] := by
  induction ins with
  | nil => rfl
  | cons a t _ => simp [classifyEvents]

theorem insertEvents_step (p : ClassifyParams) (h : db.DBTX)
    (ins : List classifications.generated.InsertClassificationParams) :
    insertEvents (.Classify p :: ins.map (Event.InsertClassification h)) =
      ins.map fun a => (h, a) := by
  induction ins with
  | nil => rfl
  | cons a t ih => simpa [insertEvents] using ih

theorem updateEvents_step (p : ClassifyParams) (h : db.DBTX)
    (ins : List classifications.generated.InsertClassificationParams) :
    updateEvents (.Classify p :: ins.map (Event.InsertClassification h)) = [] := by
  induction ins with
  | nil => rfl
  | cons a t _ => simp [updateEvents]

theorem listCallsEvents_step (p : ClassifyParams) (h : db.DBTX)
    (ins : List classifications.generated.InsertClassificationParams) :
    listCallsEvents (.Classify p :: ins.map (Event.InsertClassification h)) = [] := by
  induction ins with
  | nil => rfl
  | cons a t _ => simp [listCallsEvents]

theorem classifyVoiceCalls_cons (orc : Oracle) (senv : svc.Env)
    (classifier : ClassifierInterface) (q : classifications.generated.Queries)
    (tid : String) (w : World) (c : classifications.generated.VoiceCall)
    (rest : List classifications.generated.VoiceCall) :
    classifyVoiceCalls orc senv classifier q tid w (c :: rest) =
      match classifyVoiceCall orc senv classifier q w tid c with
      | (.panic msg, w1) => (.panic msg, w1)
      | (.error err, w1) =>
        (.error err, w1.Printf ("Error classifying voice call " ++ c.ID ++ ": " ++ err))
      | (.ok _, w1) => classifyVoiceCalls orc senv classifier q tid w1 rest := by
  rw [classifyVoiceCalls]

/-- What the loop over the voice calls adds to the trace.  It invokes the
classifier on the first `k` calls, in order, for some `k`, and on no other;
it issues at most `k` inserts, all on the handle of the queries and for the
given thread; it issues no status update and lists no calls.  When it
succeeds, `k` is the number of calls and there is one insert per call. -/
theorem classifyVoiceCalls_trace (orc : Oracle) (senv : svc.Env)
    (classifier : ClassifierInterface) (q : classifications.generated.Queries)
    (tid : String) (calls : List classifications.generated.VoiceCall) (w : World) :
    ∃ (k : Nat) (evs : List Event), k ≤ calls.length ∧
      (classifyVoiceCalls orc senv classifier q tid w calls).2.trace = w.trace ++ evs ∧
      classifyEvents evs = (calls.take k).map paramsFor ∧
      updateEvents evs = [] ∧ listCallsEvents evs = [] ∧
      (∀ x ∈ insertEvents evs, x.1 = q.db ∧ x.2.CampaignThreadID = tid) ∧
      (insertEvents evs).length ≤ k ∧
      ((classifyVoiceCalls orc senv classifier q tid w calls).1 = .ok () →
        k = calls.length ∧ (insertEvents evs).length = calls.length) := by
  induction calls generalizing w with
  | nil => exact ⟨0, [], by simp [classifyVoiceCalls, classifyEvents, updateEvents,
      listCallsEvents, insertEvents]⟩
  | cons c rest ih =>
    obtain ⟨ins, htr, htid, hlen, hsucc⟩ := classifyVoiceCall_trace orc senv classifier q w tid c
    rw [classifyVoiceCalls_cons]
    revert htr hsucc
    cases classifyVoiceCall orc senv classifier q w tid c with
    | mk res w1 =>
    cases res with
    | panic msg =>
      intro htr _
      refine ⟨1, .Classify (paramsFor c) :: ins.map (Event.InsertClassification q.db),
        by simp, by simpa using htr, ?_, updateEvents_step _ _ _,
        listCallsEvents_step _ _ _, ?_, ?_, by simp⟩
      · simp [classifyEvents_step]
      · rw [insertEvents_step]
        intro x hx
        obtain ⟨a, ha, rfl⟩ := List.mem_map.1 hx
        exact ⟨rfl, htid a ha⟩
      · rw [insertEvents_step]; simpa using hlen
    | error err =>
      intro htr _
      refine ⟨1, .Classify (paramsFor c) :: ins.map (Event.InsertClassification q.db),
        by simp, by simpa [World.Printf] using htr, ?_, updateEvents_step _ _ _,
        listCallsEvents_step _ _ _, ?_, ?_, by simp⟩
      · simp [classifyEvents_step]
      · rw [insertEvents_step]
        intro x hx
        obtain ⟨a, ha, rfl⟩ := List.mem_map.1 hx
        exact ⟨rfl, htid a ha⟩
      · rw [insertEvents_step]; simpa using hlen
    | ok u =>
      intro htr hsucc
      have hone : ins.length = 1 := hsucc rfl
      obtain ⟨k, evs, hk, htr2, hcl, hup, hli, hins, hinsl, hok⟩ := ih w1
      refine ⟨k + 1, (.Classify (paramsFor c) :: ins.map (Event.InsertClassification q.db))
        ++ evs, by simpa using hk, ?_, ?_, ?_, ?_, ?_, ?_, ?_⟩
      · simp only [] at htr ⊢
        rw [htr2, htr]; simp
      · rw [classifyEvents_append, classifyEvents_step, hcl]; simp
      · rw [updateEvents_append, updateEvents_step, hup]; rfl
      · rw [listCallsEvents_append, listCallsEvents_step, hli]; rfl
      · rw [insertEvents_append, insertEvents_step]
        intro x hx
        rcases List.mem_append.1 hx with hx | hx
        · obtain ⟨a, ha, rfl⟩ := List.mem_map.1 hx
          exact ⟨rfl, htid a ha⟩
        · exact hins x hx
      · rw [insertEvents_append, insertEvents_step]
        simp only [List.length_append, List.length_map, hone]
        omega
      · intro hnone
        obtain ⟨h1, h2⟩ := hok hnone
        rw [insertEvents_append, insertEvents_step]
        simp only [List.length_append, List.length_map, hone, List.length_cons]
        omega

/-- What the loop over the voice calls, inserting on the shared connection,
does to the tables: it adds rows of the given thread after the existing ones,
at most one per call and, when it succeeds, exactly one per call; threads,
calls and the open transaction are not touched. -/
theorem classifyVoiceCalls_store (orc : Oracle) (senv : svc.Env)
    (classifier : ClassifierInterface) (q : classifications.generated.Queries)
    (tid : String) (hq : q.db = .DB)
    (calls : List classifications.generated.VoiceCall) (w : World) :
    ∃ rows : List classifications.generated.Classification,
      (classifyVoiceCalls orc senv classifier q tid w calls).2.store =
        { w.store with classifications := w.store.classifications ++ rows } ∧
      (∀ r ∈ rows, r.CampaignThreadID = tid) ∧ rows.length ≤ calls.length ∧
      ((classifyVoiceCalls orc senv classifier q tid w calls).1 = .ok () →
        rows.length = calls.length) ∧
      (classifyVoiceCalls orc senv classifier q tid w calls).2.tx = w.tx := by
  induction calls generalizing w with
  | nil => exact ⟨[], by simp [classifyVoiceCalls]⟩
  | cons c rest ih =>
    obtain ⟨rows1, hst, htid, hok1, herr1, htx⟩ :=
      classifyVoiceCall_store orc senv classifier q w tid c hq
    rw [classifyVoiceCalls_cons]
    revert hst hok1 herr1 htx
    cases classifyVoiceCall orc senv classifier q w tid c with
    | mk res w1 =>
    cases res with
    | panic msg =>
      intro hst _ herr1 htx
      have : rows1 = [] := herr1 (by simp)
      subst this
      exact ⟨[], by simpa using hst, by simp, by simp, by simp, by simpa using htx⟩
    | error err =>
      intro hst _ herr1 htx
      have : rows1 = [] := herr1 (by simp)
      subst this
      exact ⟨[], by simpa [World.Printf] using hst, by simp, by simp, by simp,
        by simpa [World.Printf] using htx⟩
    | ok u =>
      intro hst hok1 _ htx
      have hone : rows1.length = 1 := hok1 rfl
      obtain ⟨rows2, hst2, htid2, hle2, hok2, htx2⟩ := ih w1
      refine ⟨rows1 ++ rows2, ?_, ?_, ?_, ?_, ?_⟩
      · simp only [] at hst ⊢
        rw [hst2, hst]; simp
      · intro r hr
        rcases List.mem_append.1 hr with hr | hr
        · exact htid r hr
        · exact htid2 r hr
      · simp only [List.length_append, List.length_cons, hone]; omega
      · intro hnone
        have := hok2 hnone
        simp only [List.length_append, List.length_cons, hone]; omega
      · simp only [] at htx ⊢
        rw [htx2, htx]

/-- The loop stops at the first call that fails: if the calls `pre` all
succeed and the next call fails, the loop over any list beginning with them
returns that failure, in the state the failing call left, with the failure
logged. -/
theorem classifyVoiceCalls_stops (orc : Oracle) (senv : svc.Env)
    (classifier : ClassifierInterface) (q : classifications.generated.Queries)
    (tid : String) (pre post : List classifications.generated.VoiceCall)
    (ci : classifications.generated.VoiceCall) (w w2 w3 : World) (err : String)
    (hpre : classifyVoiceCalls orc senv classifier q tid w pre = (.ok (), w2))
    (hci : classifyVoiceCall orc senv classifier q w2 tid ci = (.error err, w3)) :
    classifyVoiceCalls orc senv classifier q tid w (pre ++ ci :: post) =
      (.error err, w3.Printf ("Error classifying voice call " ++ ci.ID ++ ": " ++ err)) := by
  induction pre generalizing w with
  | nil =>
    simp only [classifyVoiceCalls] at hpre
    obtain rfl : w = w2 := by simpa using hpre
    rw [List.nil_append, classifyVoiceCalls_cons, hci]
  | cons c rest ih =>
    rw [classifyVoiceCalls_cons] at hpre
    rw [List.cons_append, classifyVoiceCalls_cons]
    revert hpre
    cases classifyVoiceCall orc senv classifier q w tid c with
    | mk res w1 =>
    cases res with
    | panic msg => intro hpre; simp at hpre
    | error e => intro hpre; simp at hpre
    | ok u => intro hpre; exact ih w1 hpre

/-- The status transition of `processThread` on the shared connection.  If
no transaction can be begun, nothing but the attempt happens.  Otherwise the
trace gains `Beginx`, the update on the transaction, and then either the
rollback alone (the update failed) or the commit and the deferred rollback;
on success the update is applied to the tables, on failure the tables are as
before.  Classification rows are never touched. -/
theorem withTx_update (orc : Oracle) (w : World) (id : String) (st : CampaignThreadStatus) :
    (∀ err, orc.fail w .Beginx = some err →
      db.WithTx orc w .DB (fun wt tx => campaignthreads.UpdateStatus orc wt tx id st) =
        (some err, w.emit .Beginx)) ∧
    (orc.fail w .Beginx = none →
      ∃ tail, (db.WithTx orc w .DB
          (fun wt tx => campaignthreads.UpdateStatus orc wt tx id st)).2.trace =
          w.trace ++ [.Beginx, .UpdateStatus .Tx ⟨id, st⟩] ++ tail ∧
        (tail = [.Rollback] ∨ tail = [.Commit, .Rollback]) ∧
        ((db.WithTx orc w .DB
            (fun wt tx => campaignthreads.UpdateStatus orc wt tx id st)).1 = none →
          (db.WithTx orc w .DB
            (fun wt tx => campaignthreads.UpdateStatus orc wt tx id st)).2.store =
            Write.apply w.store (.updateStatus ⟨id, st⟩)) ∧
        ((db.WithTx orc w .DB
            (fun wt tx => campaignthreads.UpdateStatus orc wt tx id st)).1 ≠ none →
          (db.WithTx orc w .DB
            (fun wt tx => campaignthreads.UpdateStatus orc wt tx id st)).2.store = w.store)) ∧
    (db.WithTx orc w .DB
      (fun wt tx => campaignthreads.UpdateStatus orc wt tx id st)).2.store.classifications =
      w.store.classifications := by
  refine ⟨?_, ?_, ?_⟩
  · intro err hb
    simp only [db.WithTx, hb]
  · intro hb
    simp only [db.WithTx, hb, campaignthreads.UpdateStatus, campaignthreads.generated.New,
      campaignthreads.generated.UpdateStatus, World.exec, World.emit]
    cases orc.fail _ (.UpdateStatus .Tx ⟨id, st⟩) with
    | some e =>
      refine ⟨[.Rollback], ?_, Or.inl rfl, ?_, ?_⟩
      · simp only [db.Rollback, World.emit]
        split <;> simp [World.Printf]
      · simp
      · intro _
        simp only [db.Rollback, World.emit]
        split <;> simp [World.Printf]
    | none =>
      simp only [db.Commit, World.emit]
      cases orc.fail _ .Commit with
      | some e =>
        refine ⟨[.Commit, .Rollback], ?_, Or.inr rfl, ?_, ?_⟩
        · simp only [db.Rollback, World.emit]
          split <;> simp [World.Printf]
        · simp
        · intro _
          simp only [db.Rollback, World.emit]
          split <;> simp [World.Printf]
      | none =>
        refine ⟨[.Commit, .Rollback], ?_, Or.inr rfl, ?_, ?_⟩
        · simp [db.Rollback, World.emit]
        · intro _
          simp [db.Rollback, World.emit]
        · simp
  · simp only [db.WithTx, campaignthreads.UpdateStatus, campaignthreads.generated.New,
      campaignthreads.generated.UpdateStatus, World.exec, World.emit]
    cases orc.fail w .Beginx with
    | some e => simp
    | none =>
      simp only []
      cases orc.fail _ (.UpdateStatus .Tx ⟨id, st⟩) with
      | some e =>
        simp only [db.Rollback, World.emit]
        split <;> simp [World.Printf]
      | none =>
        simp only [db.Commit, World.emit]
        cases orc.fail _ .Commit with
        | some e =>
          simp only [db.Rollback, World.emit]
          split <;> simp [World.Printf]
        | none => simp [db.Rollback, World.emit, Write.apply]

/-- The status transition lists no calls, whatever the handle. -/
theorem withTx_update_listCalls (orc : Oracle) (w : World) (h : db.DBTX) (id : String)
    (st : CampaignThreadStatus) :
    listCallsEvents (db.WithTx orc w h
      (fun wt tx => campaignthreads.UpdateStatus orc wt tx id st)).2.trace =
      listCallsEvents w.trace := by
  cases h with
  | other => rfl
  | Tx =>
    simp only [db.WithTx, campaignthreads.UpdateStatus, campaignthreads.generated.New,
      campaignthreads.generated.UpdateStatus]
    have ht := (exec_trace orc w .Tx (.UpdateStatus .Tx ⟨id, st⟩) (.updateStatus ⟨id, st⟩)).1
    revert ht
    cases w.exec orc .Tx (.UpdateStatus .Tx ⟨id, st⟩) (.updateStatus ⟨id, st⟩) with
    | mk res w1 =>
      intro ht
      cases res <;> simp only [] at ht ⊢ <;> rw [ht, listCallsEvents_append] <;>
        simp [listCallsEvents]
  | DB =>
    obtain ⟨hfail, hok, _⟩ := withTx_update orc w id st
    cases hb : orc.fail w .Beginx with
    | some err =>
      rw [hfail err hb]
      simp [World.emit, listCallsEvents]
    | none =>
      obtain ⟨tail, htr, htail, _⟩ := hok hb
      rw [htr]
      rcases htail with rfl | rfl <;> simp [listCallsEvents]

/-- Listing the calls of a thread records the query and changes nothing
else. -/
theorem listVoiceCalls_world (orc : Oracle) (w : World)
    (q : classifications.generated.Queries) (tid : String) :
    (classifications.generated.ListVoiceCallsForThread orc w q tid).2 =
      w.emit (.ListVoiceCallsForThread q.db tid) :=
  query_world orc w q.db _ _

/-- The run of `processThread` once the listing has returned `calls`, not
empty. -/
theorem processThread_of_calls (orc : Oracle) (senv : svc.Env)
    (classifier : ClassifierInterface) (q : classifications.generated.Queries) (w : World)
    (thread : campaignthreads.generated.CampaignThread)
    (calls : List classifications.generated.VoiceCall) (w1 : World)
    (hlist : classifications.generated.ListVoiceCallsForThread orc w q thread.ID =
      (.ok calls, w1))
    (hne : calls ≠ []) :
    processThread orc senv classifier q w thread =
      match classifyVoiceCalls orc senv classifier q thread.ID
          (w1.Printf ("Processing " ++ toString calls.length ++
            " voice calls for thread " ++ thread.ID)) calls with
      | (.panic msg, w3) => (.panic msg, w3)
      | (.error err, w3) => (.error err, w3)
      | (.ok _, w3) =>
        match db.WithTx orc w3 senv.DB (fun wt tx =>
            campaignthreads.UpdateStatus orc wt tx thread.ID
              CampaignThreadStatusVoiceCallClassified) with
        | (some err, w4) => (.error err, w4)
        | (none, w4) => (.ok (), w4.Printf ("Successfully classified thread " ++ thread.ID)) := by
  unfold processThread
  have hlen : calls.length ≠ 0 := by
    cases calls with
    | nil => exact absurd rfl hne
    | cons _ _ => simp
  simp only [hlist, hlen, if_false]

/-- Every run of `processThread` lists the calls of its thread once, first,
and lists no other calls. -/
theorem processThread_listCalls (orc : Oracle) (senv : svc.Env)
    (classifier : ClassifierInterface) (q : classifications.generated.Queries) (w : World)
    (thread : campaignthreads.generated.CampaignThread) :
    listCallsEvents (processThread orc senv classifier q w thread).2.trace =
      listCallsEvents w.trace ++ [thread.ID] := by
  have hw := listVoiceCalls_world orc w q thread.ID
  cases hl : classifications.generated.ListVoiceCallsForThread orc w q thread.ID with
  | mk res w1 =>
  rw [hl] at hw
  simp only [] at hw
  have h1 : listCallsEvents w1.trace = listCallsEvents w.trace ++ [thread.ID] := by
    rw [hw]; simp [World.emit, listCallsEvents]
  cases res with
  | error err =>
    unfold processThread
    simp only [hl]
    exact h1
  | ok calls =>
    by_cases hne : calls = []
    · subst hne
      unfold processThread
      simp only [hl, List.length_nil, if_true, World.Printf]
      exact h1
    · rw [processThread_of_calls orc senv classifier q w thread calls w1 hl hne]
      obtain ⟨k, evs, _, htr, _, _, hli, _⟩ := classifyVoiceCalls_trace orc senv classifier q
        thread.ID calls (w1.Printf ("Processing " ++ toString calls.length ++
          " voice calls for thread " ++ thread.ID))
      revert htr
      cases classifyVoiceCalls orc senv classifier q thread.ID
          (w1.Printf ("Processing " ++ toString calls.length ++
            " voice calls for thread " ++ thread.ID)) calls with
      | mk res3 w3 =>
      intro htr
      have h3 : listCallsEvents w3.trace = listCallsEvents w.trace ++ [thread.ID] := by
        simp only [World.Printf] at htr
        rw [htr, listCallsEvents_append, hli, h1]; simp
      cases res3 with
      | panic msg => exact h3
      | error err => exact h3
      | ok u =>
        simp only []
        have h4 := withTx_update_listCalls orc w3 senv.DB thread.ID
          CampaignThreadStatusVoiceCallClassified
        revert h4
        cases db.WithTx orc w3 senv.DB (fun wt tx =>
            campaignthreads.UpdateStatus orc wt tx thread.ID
              CampaignThreadStatusVoiceCallClassified) with
        | mk res4 w4 =>
          intro h4
          cases res4 <;> simp only [World.Printf] <;> rw [← h3] <;> exact h4

/-- A classifier that never panics: `classifyVoiceCall` does not panic. -/
theorem classifyVoiceCall_no_panic (orc : Oracle) (senv : svc.Env)
    (classifier : ClassifierInterface)
    (hnp : ∀ w0 p msg, classifier w0 senv p ≠ .panic msg)
    (q : classifications.generated.Queries) (w : World) (tid : String)
    (c : classifications.generated.VoiceCall) (msg : String) :
    (classifyVoiceCall orc senv classifier q w tid c).1 ≠ .panic msg := by
  cases hc : classifier w senv (paramsFor c) with
  | panic m => exact absurd hc (hnp _ _ _)
  | error err =>
    rw [classifyVoiceCall_error _ _ _ _ _ _ _ _ hc]
    simp
  | ok result =>
    rw [classifyVoiceCall_ok _ _ _ _ _ _ _ _ hc]
    cases classifications.generated.InsertClassification orc
        (w.emit (.Classify (paramsFor c))) q
        (insertParamsFor (orc.uuid (w.emit (.Classify (paramsFor c)))) tid result) with
    | mk res w2 => cases res <;> simp

/-- A classifier that never panics: the loop over the voice calls does not
panic. -/
theorem classifyVoiceCalls_no_panic (orc : Oracle) (senv : svc.Env)
    (classifier : ClassifierInterface)
    (hnp : ∀ w0 p msg, classifier w0 senv p ≠ .panic msg)
    (q : classifications.generated.Queries) (tid : String)
    (calls : List classifications.generated.VoiceCall) (w : World) (msg : String) :
    (classifyVoiceCalls orc senv classifier q tid w calls).1 ≠ .panic msg := by
  induction calls generalizing w with
  | nil => simp [classifyVoiceCalls]
  | cons c rest ih =>
    have h1 := classifyVoiceCall_no_panic orc senv classifier hnp q w tid c
    rw [classifyVoiceCalls_cons]
    revert h1
    cases classifyVoiceCall orc senv classifier q w tid c with
    | mk res w1 =>
      intro h1
      cases res with
      | panic m => exact absurd rfl (h1 m)
      | error err => simp
      | ok u => exact ih w1

/-- A classifier that never panics: `processThread` does not panic. -/
theorem processThread_no_panic (orc : Oracle) (senv : svc.Env)
    (classifier : ClassifierInterface)
    (hnp : ∀ w0 p msg, classifier w0 senv p ≠ .panic msg)
    (q : classifications.generated.Queries) (w : World)
    (thread : campaignthreads.generated.CampaignThread) (msg : String) :
    (processThread orc senv classifier q w thread).1 ≠ .panic msg := by
  cases hl : classifications.generated.ListVoiceCallsForThread orc w q thread.ID with
  | mk res w1 =>
  cases res with
  | error err =>
    unfold processThread
    simp only [hl]
    simp
  | ok calls =>
    by_cases hne : calls = []
    · subst hne
      unfold processThread
      simp only [hl, List.length_nil, if_true]
      simp
    · rw [processThread_of_calls orc senv classifier q w thread calls w1 hl hne]
      have h3 := classifyVoiceCalls_no_panic orc senv classifier hnp q thread.ID calls
        (w1.Printf ("Processing " ++ toString calls.length ++
          " voice calls for thread " ++ thread.ID))
      revert h3
      cases classifyVoiceCalls orc senv classifier q thread.ID
          (w1.Printf ("Processing " ++ toString calls.length ++
            " voice calls for thread " ++ thread.ID)) calls with
      | mk res3 w3 =>
      intro h3
      cases res3 with
      | panic m => exact absurd rfl (h3 m)
      | error err => simp
      | ok u =>
        simp only []
        cases db.WithTx orc w3 senv.DB (fun wt tx =>
            campaignthreads.UpdateStatus orc wt tx thread.ID
              CampaignThreadStatusVoiceCallClassified) with
        | mk res4 w4 => cases res4 <;> simp

/-- The loop over the threads, with a classifier that never panics: it ends
normally, and its final state is reached by running `processThread` on each
thread of the list, once, in the order of the list, each run starting in the
state the one before it left; after a run that returned an error the error
is logged, and the next thread is processed all the same. -/
theorem processThreads_fold (orc : Oracle) (senv : svc.Env)
    (classifier : ClassifierInterface)
    (hnp : ∀ w0 p msg, classifier w0 senv p ≠ .panic msg)
    (q : classifications.generated.Queries)
    (threads : List campaignthreads.generated.CampaignThread) (w : World) :
    processThreads orc senv classifier q w threads =
      (.ok (), threads.foldl (fun wi t =>
        match processThread orc senv classifier q wi t with
        | (.error err, w1) => w1.Printf ("Error processing thread " ++ t.ID ++ ": " ++ err)
        | (_, w1) => w1) w) := by
  induction threads generalizing w with
  | nil => simp [processThreads]
  | cons t rest ih =>
    have h1 := processThread_no_panic orc senv classifier hnp q w t
    rw [processThreads, List.foldl_cons]
    revert h1
    cases processThread orc senv classifier q w t with
    | mk res w1 =>
      intro h1
      cases res with
      | panic m => exact absurd rfl (h1 m)
      | error err => exact ih _
      | ok u => exact ih _

/-- Running `processThread` on each thread of a list in turn lists the calls
of each thread once, in the order of the list, whether or not a thread
fails. -/
theorem processThread_fold_listCalls (orc : Oracle) (senv : svc.Env)
    (classifier : ClassifierInterface) (q : classifications.generated.Queries)
    (threads : List campaignthreads.generated.CampaignThread) (w : World) :
    listCallsEvents (threads.foldl (fun wi t =>
        match processThread orc senv classifier q wi t with
        | (.error err, w1) => w1.Printf ("Error processing thread " ++ t.ID ++ ": " ++ err)
        | (_, w1) => w1) w).trace =
      listCallsEvents w.trace ++ threads.map (fun t => t.ID) := by
  induction threads generalizing w with
  | nil => simp
  | cons t rest ih =>
    have h1 := processThread_listCalls orc senv classifier q w t
    rw [List.foldl_cons, ih]
    revert h1
    cases processThread orc senv classifier q w t with
    | mk res w1 =>
      intro h1
      cases res <;> simp only [World.Printf] <;> rw [h1] <;> simp

end Pipeline

section ThreadProcessor

open main voiceclassifier common

/-- C4. Fail-fast.  Let the listing of a thread return the calls
`pre ++ ci :: post`, let the calls `pre` be classified and inserted
successfully, and let the classification or the insertion of `ci` fail with
`err`.  Then `processThread` returns `err`, in the state the failing call
left plus one log line; the classifier has been invoked on `pre` and `ci` and
on no call of `post`; no status update has been issued; at most
`pre.length + 1` inserts have been issued; and, the inserts being made on the
shared connection, the classification table holds the rows it held before
followed by one row per call of `pre`, which stay, and nothing for `ci` or
`post`; the threads are as before. -/
theorem processThread_fail_fast (orc : Oracle) (senv : svc.Env)
    (classifier : ClassifierInterface) (q : classifications.generated.Queries) (w : World)
    (thread : campaignthreads.generated.CampaignThread)
    (pre post : List classifications.generated.VoiceCall)
    (ci : classifications.generated.VoiceCall) (w1 w2 w3 : World) (err : String)
    (hlist : classifications.generated.ListVoiceCallsForThread orc w q thread.ID =
      (.ok (pre ++ ci :: post), w1))
    (hpre : classifyVoiceCalls orc senv classifier q thread.ID
      (w1.Printf ("Processing " ++ toString (pre ++ ci :: post).length ++
        " voice calls for thread " ++ thread.ID)) pre = (.ok (), w2))
    (hci : classifyVoiceCall orc senv classifier q w2 thread.ID ci = (.error err, w3)) :
    processThread orc senv classifier q w thread =
      (.error err, w3.Printf ("Error classifying voice call " ++ ci.ID ++ ": " ++ err)) ∧
    classifyEvents w3.trace = classifyEvents w.trace ++ (pre ++ [ci]).map paramsFor ∧
    updateEvents w3.trace = updateEvents w.trace ∧
    (∃ ins, insertEvents w3.trace = insertEvents w.trace ++ ins ∧
      ins.length ≤ pre.length + 1) ∧
    (q.db = .DB →
      ∃ rows, rows.length = pre.length ∧ (∀ r ∈ rows, r.CampaignThreadID = thread.ID) ∧
        w2.store.classifications = w.store.classifications ++ rows ∧
        w3.store.classifications = w.store.classifications ++ rows ∧
        w3.store.threads = w.store.threads) := by
  have hw1 : w1 = w.emit (.ListVoiceCallsForThread q.db thread.ID) := by
    have := listVoiceCalls_world orc w q thread.ID
    rw [hlist] at this; exact this
  have hne : pre ++ ci :: post ≠ [] := by simp
  refine ⟨?_, ?_, ?_, ?_, ?_⟩
  · rw [processThread_of_calls orc senv classifier q w thread _ w1 hlist hne,
      classifyVoiceCalls_stops orc senv classifier q thread.ID pre post ci _ w2 w3 err hpre hci]
  all_goals
    obtain ⟨k, evs, _, htr, hcl, hup, _, _, hinsl, hok⟩ := classifyVoiceCalls_trace orc senv
      classifier q thread.ID pre (w1.Printf ("Processing " ++
        toString (pre ++ ci :: post).length ++ " voice calls for thread " ++ thread.ID))
    obtain ⟨ins, htr3, _, hlen3, _⟩ := classifyVoiceCall_trace orc senv classifier q w2
      thread.ID ci
    rw [hpre] at htr hok
    rw [hci] at htr3
    obtain ⟨hk, hil⟩ := hok rfl
    simp only [World.Printf] at htr
    simp only [] at htr3
    have htrace : w3.trace = w.trace ++ ([.ListVoiceCallsForThread q.db thread.ID] ++ evs ++
        (.Classify (paramsFor ci) :: ins.map (Event.InsertClassification q.db))) := by
      rw [htr3, htr, hw1]; simp [World.emit]
  · rw [htrace]
    simp only [classifyEvents_append, classifyEvents_step, hcl, hk, List.take_length,
      List.map_append]
    simp [classifyEvents]
  · rw [htrace]
    simp only [updateEvents_append, updateEvents_step, hup]
    simp [updateEvents]
  · refine ⟨insertEvents evs ++ ins.map (fun a => (q.db, a)), ?_, ?_⟩
    · rw [htrace]
      simp only [insertEvents_append, insertEvents_step]
      simp [insertEvents]
    · simp only [List.length_append, List.length_map]
      omega
  · intro hq
    obtain ⟨rows, hst, htid, _, hrl, _⟩ := classifyVoiceCalls_store orc senv classifier q
      thread.ID hq pre (w1.Printf ("Processing " ++
        toString (pre ++ ci :: post).length ++ " voice calls for thread " ++ thread.ID))
    obtain ⟨rows3, hst3, _, _, hnil, _⟩ := classifyVoiceCall_store orc senv classifier q w2
      thread.ID ci hq
    rw [hpre] at hst hrl
    rw [hci] at hst3 hnil
    have : rows3 = [] := hnil (by simp)
    subst this
    simp only [World.Printf] at hst
    simp only [] at hst3
    refine ⟨rows, hrl rfl, htid, ?_, ?_, ?_⟩
    · rw [hst, hw1]; simp [World.emit]
    · rw [hst3, hst, hw1]; simp [World.emit]
    · rw [hst3, hst, hw1]; simp [World.emit]

set_option maxRecDepth 100000 in
/-- Witness for C4: `thread1` with two calls, the classification of the second
failing: the run returns that error, the first call's row is in the table and
the thread still awaits classification. -/
theorem processThread_fail_fast_witness :
    sample.run1 = (.error "openai create chat completion: timeout",
      sample.afterCall2.Printf
        "Error classifying voice call c2: openai create chat completion: timeout") ∧
    classifyEvents sample.afterCall2.trace =
      [paramsFor sample.call1, paramsFor sample.call2] ∧
    updateEvents sample.afterCall2.trace = [] ∧
    sample.afterCall2.store.classifications.length = 1 ∧
    sample.afterCall2.store.threads = [sample.thread1] :=
  have h := processThread_fail_fast sample.oracleOk sample.senv sample.classifierFlaky
    sample.queries sample.world0 sample.thread1 [sample.call1] [] sample.call2
    (sample.world0.emit (.ListVoiceCallsForThread .DB "t1")) sample.afterCall1
    sample.afterCall2 "openai create chat completion: timeout" rfl (by decide)
    (by decide)
  ⟨h.1, h.2.1, h.2.2.1, by decide, by decide⟩

set_option maxRecDepth 100000 in
/-- C5, counterexample. Both calls of `thread1` are classified and inserted
successfully, but no transaction can be begun: `processThread` returns the
error of `Beginx` and the status update is never issued. -/
theorem processThread_update_counterexample :
    classifyVoiceCalls sample.oracleNoBegin sample.senv sample.classifierOk sample.queries
      "t1" sample.started [sample.call1, sample.call2] = (.ok (), sample.afterBoth) ∧
    (processThread sample.oracleNoBegin sample.senv sample.classifierOk sample.queries
      sample.world0 sample.thread1).1 = .error "connection refused" ∧
    updateEvents (processThread sample.oracleNoBegin sample.senv sample.classifierOk
      sample.queries sample.world0 sample.thread1).2.trace = [] ∧
    (processThread sample.oracleNoBegin sample.senv sample.classifierOk sample.queries
      sample.world0 sample.thread1).2.store.threads = [sample.thread1] := by
  decide

/-- C5, amended. Let the service environment and the queries be on the shared
connection, let the listing of a thread return `calls`, not empty, let every
call be classified and inserted successfully, and let the transaction be
begun successfully.  Then what `processThread` adds to the trace is: the
listing; then `mid`, which holds one insert per call, each on the shared
connection, and no status update; then `Beginx`, the status update on the
transaction with the thread's identifier and `voice_call_classified`; then
either the rollback alone or the commit and the deferred rollback.  So the
update is issued exactly once, after all the inserts, in a transaction that
holds nothing else.  When `processThread` succeeds the status of the thread
has been set in the tables. -/
theorem processThread_status_update (orc : Oracle) (senv : svc.Env)
    (classifier : ClassifierInterface) (q : classifications.generated.Queries) (w : World)
    (thread : campaignthreads.generated.CampaignThread)
    (calls : List classifications.generated.VoiceCall) (w1 w3 : World)
    (hdb : senv.DB = .DB) (hq : q.db = .DB)
    (hlist : classifications.generated.ListVoiceCallsForThread orc w q thread.ID =
      (.ok calls, w1))
    (hne : calls ≠ [])
    (hloop : classifyVoiceCalls orc senv classifier q thread.ID
      (w1.Printf ("Processing " ++ toString calls.length ++
        " voice calls for thread " ++ thread.ID)) calls = (.ok (), w3))
    (hbegin : orc.fail w3 .Beginx = none) :
    ∃ mid tail : List Event,
      (processThread orc senv classifier q w thread).2.trace =
        w.trace ++ .ListVoiceCallsForThread .DB thread.ID :: mid ++
          [.Beginx, .UpdateStatus .Tx ⟨thread.ID, CampaignThreadStatusVoiceCallClassified⟩]
          ++ tail ∧
      (insertEvents mid).length = calls.length ∧ (∀ x ∈ insertEvents mid, x.1 = .DB) ∧
      updateEvents mid = [] ∧
      (tail = [.Rollback] ∨ tail = [.Commit, .Rollback]) ∧
      ((processThread orc senv classifier q w thread).1 = .ok () →
        (processThread orc senv classifier q w thread).2.store.threads =
          w.store.threads.map fun t =>
            if t.ID = thread.ID then
              { t with Status := CampaignThreadStatusVoiceCallClassified }
            else t) := by
  have hw1 : w1 = w.emit (.ListVoiceCallsForThread q.db thread.ID) := by
    have := listVoiceCalls_world orc w q thread.ID
    rw [hlist] at this; exact this
  obtain ⟨k, evs, _, htr, _, hup, _, hins, _, hok⟩ := classifyVoiceCalls_trace orc senv
    classifier q thread.ID calls (w1.Printf ("Processing " ++ toString calls.length ++
      " voice calls for thread " ++ thread.ID))
  obtain ⟨rows, hst, _⟩ := classifyVoiceCalls_store orc senv classifier q thread.ID hq calls
    (w1.Printf ("Processing " ++ toString calls.length ++
      " voice calls for thread " ++ thread.ID))
  rw [hloop] at htr hok hst
  simp only [World.Printf] at htr hst
  obtain ⟨_, hil⟩ := hok rfl
  obtain ⟨_, hwt, _⟩ := withTx_update orc w3 thread.ID CampaignThreadStatusVoiceCallClassified
  obtain ⟨tail, htr4, htail, hsucc, _⟩ := hwt hbegin
  rw [processThread_of_calls orc senv classifier q w thread calls w1 hlist hne, hloop, hdb]
  simp only []
  revert htr4 hsucc
  cases db.WithTx orc w3 .DB (fun wt tx =>
      campaignthreads.UpdateStatus orc wt tx thread.ID
        CampaignThreadStatusVoiceCallClassified) with
  | mk res4 w4 =>
    intro htr4 hsucc
    have htrace : w4.trace = w.trace ++ .ListVoiceCallsForThread .DB thread.ID :: evs ++
        [.Beginx, .UpdateStatus .Tx ⟨thread.ID, CampaignThreadStatusVoiceCallClassified⟩]
        ++ tail := by
      simp only [] at htr4
      rw [htr4, htr, hw1, hq]; simp [World.emit]
    refine ⟨evs, tail, ?_, hil, ?_, hup, htail, ?_⟩
    · cases res4 <;> simpa [World.Printf] using htrace
    · intro x hx
      rw [← hq]; exact (hins x hx).1
    · cases res4 with
      | some e => intro h; simp at h
      | none =>
        intro _
        have := hsucc rfl
        simp only [World.Printf] at this ⊢
        rw [this, hst, hw1]
        simp [Write.apply, World.emit]

set_option maxRecDepth 100000 in
/-- Witness for C5 (amended): `thread1` with two calls, everything
succeeding: the run ends with `Beginx`, the update, the commit and the
deferred rollback, and the thread is classified. -/
theorem processThread_status_update_witness :
    ∃ mid tail : List Event,
      (processThread sample.oracleOk sample.senv sample.classifierOk sample.queries
        sample.world0 sample.thread1).2.trace =
        sample.world0.trace ++ .ListVoiceCallsForThread .DB sample.thread1.ID :: mid ++
          [.Beginx, .UpdateStatus .Tx
            ⟨sample.thread1.ID, CampaignThreadStatusVoiceCallClassified⟩] ++ tail ∧
      (insertEvents mid).length = [sample.call1, sample.call2].length ∧
      (∀ x ∈ insertEvents mid, x.1 = .DB) ∧
      updateEvents mid = [] ∧
      (tail = [.Rollback] ∨ tail = [.Commit, .Rollback]) ∧
      ((processThread sample.oracleOk sample.senv sample.classifierOk sample.queries
          sample.world0 sample.thread1).1 = .ok () →
        (processThread sample.oracleOk sample.senv sample.classifierOk sample.queries
          sample.world0 sample.thread1).2.store.threads =
          sample.world0.store.threads.map fun t =>
            if t.ID = sample.thread1.ID then
              { t with Status := CampaignThreadStatusVoiceCallClassified }
            else t) :=
  processThread_status_update sample.oracleOk sample.senv sample.classifierOk sample.queries
    sample.world0 sample.thread1 [sample.call1, sample.call2]
    (sample.world0.emit (.ListVoiceCallsForThread .DB "t1")) sample.afterBoth
    rfl rfl rfl (by decide) (by decide) rfl

/-- C6. When the listing of a thread returns no voice call, `processThread`
returns success having done nothing but the listing (and written one log
line): the classifier is not invoked, no insert and no status update is
issued, and the tables, the thread's status among them, are unchanged. -/
theorem processThread_no_calls (orc : Oracle) (senv : svc.Env)
    (classifier : ClassifierInterface) (q : classifications.generated.Queries) (w : World)
    (thread : campaignthreads.generated.CampaignThread)
    (hlist : (classifications.generated.ListVoiceCallsForThread orc w q thread.ID).1 =
      .ok []) :
    (processThread orc senv classifier q w thread).1 = .ok () ∧
    (processThread orc senv classifier q w thread).2.trace =
      w.trace ++ [.ListVoiceCallsForThread q.db thread.ID] ∧
    classifyEvents (processThread orc senv classifier q w thread).2.trace =
      classifyEvents w.trace ∧
    insertEvents (processThread orc senv classifier q w thread).2.trace =
      insertEvents w.trace ∧
    updateEvents (processThread orc senv classifier q w thread).2.trace =
      updateEvents w.trace ∧
    (processThread orc senv classifier q w thread).2.store = w.store ∧
    (processThread orc senv classifier q w thread).2.tx = w.tx := by
  have hw := listVoiceCalls_world orc w q thread.ID
  revert hlist hw
  unfold processThread
  cases classifications.generated.ListVoiceCallsForThread orc w q thread.ID with
  | mk res w1 =>
    intro hlist hw
    simp only [] at hlist hw
    subst hlist hw
    simp [World.Printf, World.emit, classifyEvents, insertEvents, updateEvents]

set_option maxRecDepth 100000 in
/-- Witness for C6: a thread without calls. -/
theorem processThread_no_calls_witness :
    (processThread sample.oracleOk sample.senv sample.classifierOk sample.queries
      sample.worldNoCalls sample.thread1).1 = .ok () ∧
    (processThread sample.oracleOk sample.senv sample.classifierOk sample.queries
      sample.worldNoCalls sample.thread1).2.store = sample.worldNoCalls.store :=
  have h := processThread_no_calls sample.oracleOk sample.senv sample.classifierOk
    sample.queries sample.worldNoCalls sample.thread1 rfl
  ⟨h.1, h.2.2.2.2.2.1⟩

set_option maxRecDepth 100000 in
/-- C7, counterexample. `thread1` has two calls.  In a first run the first
call is classified and its row inserted, the second fails, and the run fails.
The retry succeeds and the thread reaches `voice_call_classified`; it has
classified and inserted the first call again.  The thread then has three
classification rows for its two calls, and the first call has been
successfully classified and inserted twice. -/
theorem processThread_retry_counterexample :
    sample.run1.1 = .error "openai create chat completion: timeout" ∧
    sample.run1.2.store.classifications.length = 1 ∧
    sample.run2.1 = .ok () ∧
    sample.run2.2.store.threads = [⟨"t1", CampaignThreadStatusVoiceCallClassified⟩] ∧
    (sample.run2.2.store.voiceCalls.filter fun c => c.CampaignThreadID = "t1").length = 2 ∧
    (sample.run2.2.store.classifications.filter
      fun r => r.CampaignThreadID = "t1").length = 3 ∧
    sample.run2.2.logs.count
      "Successfully classified voice call c1 with intent voice_not_interested" = 2 := by
  decide

/-- C7, amended. In every run of `processThread` on the shared connection in
which the listing returns `calls`, the classification rows present before the
run are all kept, in place, and the run adds after them rows of that thread,
at most one per listed call, and exactly one per listed call when the run
succeeds.  Nothing is said across runs: a retry adds rows again. -/
theorem processThread_rows_per_run (orc : Oracle) (senv : svc.Env)
    (classifier : ClassifierInterface) (q : classifications.generated.Queries) (w : World)
    (thread : campaignthreads.generated.CampaignThread)
    (calls : List classifications.generated.VoiceCall)
    (hdb : senv.DB = .DB) (hq : q.db = .DB)
    (hlist : (classifications.generated.ListVoiceCallsForThread orc w q thread.ID).1 =
      .ok calls) :
    ∃ rows : List classifications.generated.Classification,
      (processThread orc senv classifier q w thread).2.store.classifications =
        w.store.classifications ++ rows ∧
      (∀ r ∈ rows, r.CampaignThreadID = thread.ID) ∧
      rows.length ≤ calls.length ∧
      ((processThread orc senv classifier q w thread).1 = .ok () →
        rows.length = calls.length) := by
  have hw := listVoiceCalls_world orc w q thread.ID
  revert hlist hw
  cases hl : classifications.generated.ListVoiceCallsForThread orc w q thread.ID with
  | mk res w1 =>
  intro hlist hw
  simp only [] at hlist hw
  subst hlist
  by_cases hne : calls = []
  · subst hne
    refine ⟨[], ?_, by simp, by simp, by simp⟩
    unfold processThread
    simp [hl, hw, World.Printf, World.emit]
  · rw [processThread_of_calls orc senv classifier q w thread calls w1 hl hne, hdb]
    obtain ⟨rows, hst, htid, hle, hok, _⟩ := classifyVoiceCalls_store orc senv classifier q
      thread.ID hq calls (w1.Printf ("Processing " ++ toString calls.length ++
        " voice calls for thread " ++ thread.ID))
    revert hst hok
    cases classifyVoiceCalls orc senv classifier q thread.ID
        (w1.Printf ("Processing " ++ toString calls.length ++
          " voice calls for thread " ++ thread.ID)) calls with
    | mk res3 w3 =>
    intro hst hok
    simp only [World.Printf] at hst
    have h3 : w3.store.classifications = w.store.classifications ++ rows := by
      rw [hst, hw]; simp [World.emit]
    cases res3 with
    | panic msg => exact ⟨rows, h3, htid, hle, by simp⟩
    | error err => exact ⟨rows, h3, htid, hle, by simp⟩
    | ok u =>
      simp only []
      obtain ⟨_, _, hcls⟩ := withTx_update orc w3 thread.ID
        CampaignThreadStatusVoiceCallClassified
      revert hcls
      cases db.WithTx orc w3 .DB (fun wt tx =>
          campaignthreads.UpdateStatus orc wt tx thread.ID
            CampaignThreadStatusVoiceCallClassified) with
      | mk res4 w4 =>
        intro hcls
        simp only [] at hcls
        refine ⟨rows, ?_, htid, hle, fun _ => hok rfl⟩
        cases res4 <;> simp only [World.Printf] <;> rw [hcls, h3]

set_option maxRecDepth 100000 in
/-- Witness for C7 (amended): the first run on `thread1`, which fails on the
second call, adds at most two rows. -/
theorem processThread_rows_per_run_witness :
    ∃ rows : List classifications.generated.Classification,
      sample.run1.2.store.classifications = sample.world0.store.classifications ++ rows ∧
      (∀ r ∈ rows, r.CampaignThreadID = sample.thread1.ID) ∧
      rows.length ≤ [sample.call1, sample.call2].length ∧
      (sample.run1.1 = .ok () → rows.length = [sample.call1, sample.call2].length) :=
  processThread_rows_per_run sample.oracleOk sample.senv sample.classifierFlaky
    sample.queries sample.world0 sample.thread1 [sample.call1, sample.call2] rfl rfl rfl

set_option maxRecDepth 100000 in
/-- C8, counterexample. The listing returns `thread1` and `thread2`.  The
classifier is the one of the program, and the endpoint answers the first
request without error and with an empty list of choices, so the
classification of the first call of `thread1` panics.  The panic is caught
nowhere: `processUnclassifiedThreads` does not return nil, it ends by that
panic, and `processThread` has never been invoked on `thread2`: the only
calls listed are those of `thread1`, and the classifier has been invoked
once. -/
theorem processUnclassifiedThreads_panic_counterexample :
    (campaignthreads.generated.ListThreadsByStatus sample.oracleOk sample.worldTwo
      (campaignthreads.generated.New sample.senv.DB)
      CampaignThreadStatusVoiceCallUnclassified).1 = .ok [sample.thread1, sample.thread2] ∧
    sample.runNoChoice.1 = .panic indexOutOfRange ∧
    sample.runNoChoice.1 ≠ .ok () ∧
    listCallsEvents sample.runNoChoice.2.trace = ["t1"] ∧
    classifyEvents sample.runNoChoice.2.trace = [paramsFor sample.call1] :=
  ⟨rfl, by decide, by decide, by decide, by decide⟩

/-- C8, amended. Let no call of the classifier panic.  Then
`processUnclassifiedThreads` returns an error exactly when the listing of the
threads fails, and then it is that error; otherwise it returns nil.  When the
listing returns `threads`, the state it ends in is the one reached from the
state after the listing (and, the list not being empty, after the log line
that counts the threads) by running `processThread` on each thread of
`threads`, once, in the order returned, each run starting in the state the one
before it left; a run that returns an error is followed by one log line and
then by the run on the next thread, like a run that succeeds.  In particular
the calls listed during the run are those of the threads of `threads`, once
each and in that order; and when `threads` is empty nothing happens after the
listing. -/
theorem processUnclassifiedThreads_each_thread (orc : Oracle) (senv : svc.Env)
    (classifier : ClassifierInterface) (w : World)
    (hnp : ∀ w0 p msg, classifier w0 senv p ≠ .panic msg) :
    (processUnclassifiedThreads orc senv classifier w).1 =
      (match (campaignthreads.generated.ListThreadsByStatus orc w
          (campaignthreads.generated.New senv.DB)
          CampaignThreadStatusVoiceCallUnclassified).1 with
        | .error err => .error err
        | .ok _ => .ok ()) ∧
    (∀ threads, (campaignthreads.generated.ListThreadsByStatus orc w
          (campaignthreads.generated.New senv.DB)
          CampaignThreadStatusVoiceCallUnclassified).1 = .ok threads →
      (processUnclassifiedThreads orc senv classifier w).2 =
        threads.foldl (fun wi t =>
          match processThread orc senv classifier (classifications.generated.New senv.DB)
              wi t with
          | (.error err, w1) => w1.Printf ("Error processing thread " ++ t.ID ++ ": " ++ err)
          | (_, w1) => w1)
          (if threads.length = 0 then
            w.emit (.ListThreadsByStatus senv.DB CampaignThreadStatusVoiceCallUnclassified)
          else
            (w.emit (.ListThreadsByStatus senv.DB
              CampaignThreadStatusVoiceCallUnclassified)).Printf
              ("Found " ++ toString threads.length ++ " unclassified threads to process")) ∧
      listCallsEvents (processUnclassifiedThreads orc senv classifier w).2.trace =
        listCallsEvents w.trace ++ threads.map (fun t => t.ID) ∧
      (threads = [] →
        (processUnclassifiedThreads orc senv classifier w).2 =
          w.emit (.ListThreadsByStatus senv.DB
            CampaignThreadStatusVoiceCallUnclassified))) := by
  have hw : (campaignthreads.generated.ListThreadsByStatus orc w
      (campaignthreads.generated.New senv.DB)
      CampaignThreadStatusVoiceCallUnclassified).2 =
      w.emit (.ListThreadsByStatus senv.DB CampaignThreadStatusVoiceCallUnclassified) :=
    query_world orc w senv.DB _ _
  revert hw
  unfold processUnclassifiedThreads
  simp only []
  cases campaignthreads.generated.ListThreadsByStatus orc w
      (campaignthreads.generated.New senv.DB) CampaignThreadStatusVoiceCallUnclassified with
  | mk res w1 =>
    intro hw
    simp only [] at hw
    have h1 : listCallsEvents w1.trace = listCallsEvents w.trace := by
      rw [hw]; simp [World.emit, listCallsEvents]
    cases res with
    | error err => simp
    | ok threads =>
      simp only []
      cases threads with
      | nil =>
        subst hw
        simp [h1]
      | cons t rest =>
        simp only [List.length_cons, Nat.succ_ne_zero, if_false]
        rw [processThreads_fold orc senv classifier hnp]
        simp only []
        refine ⟨trivial, ?_⟩
        intro ts hts
        obtain rfl : t :: rest = ts := by simpa using hts
        refine ⟨?_, ?_, ?_⟩
        · simp only [List.length_cons, Nat.succ_ne_zero, if_false]
          rw [hw]
        · rw [processThread_fold_listCalls]
          simp only [World.Printf]
          rw [h1]
        · intro h; simp at h

set_option maxRecDepth 100000 in
/-- Witness for C8 (amended): the two threads of `worldTwo`, with a classifier
that returns an error on the second call of `thread1` and never panics.  The
run returns nil.  The run of `processThread` on `thread1` has failed and the
failure is in the log; `thread2` has been processed all the same, after it:
its calls have been listed, its call classified, its row inserted and its
status set, while `thread1` still awaits classification. -/
theorem processUnclassifiedThreads_each_thread_witness :
    sample.runTwo.1 = .ok () ∧
    sample.runTwo.2 =
      [sample.thread1, sample.thread2].foldl (fun wi t =>
        match processThread sample.oracleOk sample.senv sample.classifierFlaky
            (classifications.generated.New sample.senv.DB) wi t with
        | (.error err, w1) => w1.Printf ("Error processing thread " ++ t.ID ++ ": " ++ err)
        | (_, w1) => w1)
        ((sample.worldTwo.emit (.ListThreadsByStatus .DB
          CampaignThreadStatusVoiceCallUnclassified)).Printf
          "Found 2 unclassified threads to process") ∧
    listCallsEvents sample.runTwo.2.trace = ["t1", "t2"] ∧
    classifyEvents sample.runTwo.2.trace =
      [paramsFor sample.call1, paramsFor sample.call2, paramsFor sample.call3] ∧
    updateEvents sample.runTwo.2.trace =
      [(.Tx, ⟨"t2", CampaignThreadStatusVoiceCallClassified⟩)] ∧
    sample.runTwo.2.logs.count
      "Error processing thread t1: openai create chat completion: timeout" = 1 ∧
    sample.runTwo.2.store.threads =
      [sample.thread1, ⟨"t2", CampaignThreadStatusVoiceCallClassified⟩] ∧
    sample.runTwo.2.store.classifications.map (fun r => r.CampaignThreadID) =
      ["t1", "t2"] :=
  have h := processUnclassifiedThreads_each_thread sample.oracleOk sample.senv
    sample.classifierFlaky sample.worldTwo
    (by intro w0 p msg; unfold sample.classifierFlaky; split <;> simp)
  ⟨h.1, (h.2 [sample.thread1, sample.thread2] rfl).1,
    (h.2 [sample.thread1, sample.thread2] rfl).2.1, by decide, by decide, by decide,
    by decide, by decide⟩

end ThreadProcessor

/-! ### The read endpoint -/

section ReadEndpoint

open api

/-- `WithTxResult` runs exactly as `WithTx`: for a function that returns an
error only, the two agree. -/
theorem WithTxResult_agrees (orc : Oracle) (w : World) (h : db.DBTX)
    (f : World → db.DBTX → Option String × World) :
    db.WithTx orc w h f =
      match db.WithTxResult orc w h (fun wt tx =>
          match f wt tx with
          | (some err, w1) => (Except.error err, w1)
          | (none, w1) => (Except.ok (), w1)) with
      | (.error err, w1) => (some err, w1)
      | (.ok _, w1) => (none, w1) := by
  cases h with
  | other => rfl
  | Tx =>
    simp only [db.WithTx, db.WithTxResult]
    rcases f w .Tx with ⟨_ | err, w1⟩ <;> rfl
  | DB =>
    simp only [db.WithTx, db.WithTxResult]
    cases orc.fail w .Beginx with
    | some err => rfl
    | none =>
      simp only []
      rcases f { w.emit .Beginx with tx := some [] } .Tx with ⟨_ | err, w2⟩
      · simp only []
        rcases db.Commit orc w2 with ⟨_ | err, w3⟩ <;> rfl
      · rfl

/-- The repository call of the read endpoint records its query, with the
thread identifier it was given, and nothing else. -/
theorem ListClassificationsForThread_world (orc : Oracle) (w : World) (tx : db.DBTX)
    (threadID : String) :
    (classifications.ListClassificationsForThread orc w tx threadID).2 =
      w.emit (.ListClassificationsForThread tx threadID) := by
  have hq := query_world orc w tx (.ListClassificationsForThread tx threadID)
    fun s => s.classifications.filter fun r => r.CampaignThreadID = threadID
  unfold classifications.ListClassificationsForThread
    classifications.generated.ListClassificationsForThread classifications.generated.New
  simp only []
  generalize w.query orc tx (.ListClassificationsForThread tx threadID)
    (fun s => s.classifications.filter fun r => r.CampaignThreadID = threadID) = q at hq ⊢
  obtain ⟨res, w1⟩ := q
  cases res <;> exact hq

/-- Whatever the request, the only thread identifier the handler passes to
the repository is the query parameter `thread_id` of the URL; the route
variables of the request play no part. -/
theorem handler_passes_query_parameter (orc : Oracle) (senv : svc.Env) (w : World)
    (r : http.Request) :
    ∃ evs, (ListClassificationsForThreadHandler orc senv w r).2.trace = w.trace ++ evs ∧
      ∀ x ∈ listClassificationsEvents evs, x = r.URL.Query.Get "thread_id" := by
  unfold ListClassificationsForThreadHandler db.WithTxResult
  cases senv.DB with
  | other => exact ⟨[], by simp [listClassificationsEvents]⟩
  | Tx =>
    simp only []
    have hw := ListClassificationsForThread_world orc w .Tx (r.URL.Query.Get "thread_id")
    revert hw
    rcases classifications.ListClassificationsForThread orc w .Tx
      (r.URL.Query.Get "thread_id") with ⟨_ | ret, w1⟩ <;> intro hw <;>
      simp only [] at hw ⊢ <;> subst hw <;>
      exact ⟨[.ListClassificationsForThread .Tx (r.URL.Query.Get "thread_id")],
        by simp [World.emit], by simp [listClassificationsEvents]⟩
  | DB =>
    simp only []
    cases orc.fail w .Beginx with
    | some err => exact ⟨[.Beginx], by simp [World.emit], by simp [listClassificationsEvents]⟩
    | none =>
      simp only []
      have hw := ListClassificationsForThread_world orc
        { w.emit .Beginx with tx := some [] } .Tx (r.URL.Query.Get "thread_id")
      revert hw
      rcases classifications.ListClassificationsForThread orc
        { w.emit .Beginx with tx := some [] } .Tx (r.URL.Query.Get "thread_id")
        with ⟨_ | ret, w2⟩ <;> intro hw <;> simp only [] at hw ⊢ <;> subst hw
      · refine ⟨[.Beginx, .ListClassificationsForThread .Tx (r.URL.Query.Get "thread_id"),
          .Rollback], ?_, by simp [listClassificationsEvents]⟩
        simp only [db.Rollback, World.emit]
        split <;> simp [World.Printf]
      · simp only [db.Commit, World.emit]
        cases orc.fail _ .Commit with
        | some err =>
          refine ⟨[.Beginx, .ListClassificationsForThread .Tx (r.URL.Query.Get "thread_id"),
            .Commit, .Rollback], ?_, by simp [listClassificationsEvents]⟩
          simp only [db.Rollback, World.emit]
          split <;> simp [World.Printf]
        | none =>
          exact ⟨[.Beginx, .ListClassificationsForThread .Tx (r.URL.Query.Get "thread_id"),
            .Commit, .Rollback], by simp [db.Rollback, World.emit],
            by simp [listClassificationsEvents]⟩

set_option maxRecDepth 100000 in
/-- C12, the failing input. The request `GET /classifications/t1` matches the
route with the path variable `thread_id` = "t1", and `thread1` ("t1") has a
classification row.  The handler lists the classifications of the thread ""
(the query parameter `thread_id`, which the request does not have) and the
response, status 200, holds an empty list under the key `classifications`.
Only when the same identifier is also given as a query parameter does the
handler return the row. -/
theorem handler_ignores_path_variable :
    routeVars sample.requestPath.URL.Path = some [("thread_id", "t1")] ∧
    (sample.worldWithRow.store.classifications.filter
      fun c => c.CampaignThreadID = "t1").length = 1 ∧
    (∃ w1, Router sample.marshalTime sample.oracleOk sample.senv sample.worldWithRow
        sample.requestPath =
      some (⟨200, .json (.object [("classifications", .array [])])⟩, w1) ∧
      listClassificationsEvents w1.trace = [""]) ∧
    (∃ row w2, ListClassificationsForThreadHandler sample.oracleOk sample.senv
        sample.worldWithRow sample.requestQuery = (.ok ⟨[row]⟩, w2) ∧
      row.CampaignThreadID = "t1" ∧ listClassificationsEvents w2.trace = ["t1"]) :=
  ⟨by decide, by decide, ⟨_, rfl, by decide⟩, ⟨_, _, rfl, by decide, by decide⟩⟩

end ReadEndpoint
